import Mathlib

/-!
# Verification of the mini-compiler front end (type relations and type checker)

This development is a shallow embedding of the semantic core of the compiler
front end found in `src/compile/ast.rs` and `src/compile/typecheck.rs`:

* the type representation `Type` (here `Ty`), its custom `PartialEq` (here
  `tyEq`), `FuncProperties` and its purity-only equality;
* `Type::get_representation`, `Type::assignable` and `Type::first_mismatch`,
  together with their vector helpers;
* the binary-operator type checker `typecheck_binary_op` and its constant
  folder `typecheck_binary_op_const`;
* the `ReturnVoid` arm of `typecheck_statement`, the `MapDelete` arm of
  `typecheck_expr`, and the global-variable reordering performed by
  `typecheck_top_level_decls`.

The Rust relations recurse through a possibly cyclic nominal-type graph and
terminate only thanks to a seen-pairs set, so the embedding passes an explicit
fuel counter: each embedded function consumes one unit of fuel on entry and
returns `none` when the fuel is exhausted.  A result of `some v` therefore
certifies that the Rust recursion terminates (within that depth) with value
`v`; `none` models either running out of fuel or a `panic!`/`unimplemented!`
in the source (the `Type::Variable` arm of `assignable` is `unimplemented!`,
and is embedded as `none` at every fuel).
-/

set_option maxRecDepth 4096

namespace MiniCompile

/-- `FuncProperties` from `ast.rs`: the properties of a function or closure. -/
structure FuncProperties where
  view : Bool
  write : Bool
  closure : Bool
  public : Bool
  deriving Repr, DecidableEq

/-- `FuncProperties::purity` from `ast.rs`: the `(view, write)` pair. -/
def FuncProperties.purity (p : FuncProperties) : Bool × Bool :=
  (p.view, p.write)

/-- The custom `PartialEq for FuncProperties` from `ast.rs`:
"We only want equality when comparing types, for which only purity makes
sense", i.e. comparison of the `purity()` pairs. -/
def funcPropertiesEq (p1 p2 : FuncProperties) : Bool :=
  p1.purity == p2.purity

/-- The type `Type` of the mini language, from `ast.rs`.  `StringId` is an
interned integer (`usize`), embedded as `Nat`; module paths are `Vec<String>`,
embedded as `List String`.  A `StructField` is a name/type pair. -/
inductive Ty where
  | Void
  | Uint
  | Int
  | Bool
  | Bytes32
  | EthAddress
  | Buffer
  | Tuple (ts : List Ty)
  | Array (t : Ty)
  | FixedArray (t : Ty) (size : Nat)
  | Struct (fields : List (String × Ty))
  | Variable (path : List String) (id : Nat)
  | Nominal (path : List String) (id : Nat)
  | Generic (id : Nat) (args : List Ty)
  | Func (props : FuncProperties) (args : List Ty) (ret : Ty)
  | Map (key : Ty) (value : Ty)
  | Any
  | Every
  | Option (t : Ty)
  | Union (ts : List Ty)
  deriving Repr

mutual

/-- The custom `impl PartialEq for Type` from `ast.rs`.  It is structural on
every variant except `Func`, whose `FuncProperties` are compared through the
purity-only `PartialEq` (so the `closure` and `public` flags are ignored). -/
def tyEq : Ty → Ty → Bool
  | .Void, b => match b with | .Void => true | _ => false
  | .Uint, b => match b with | .Uint => true | _ => false
  | .Int, b => match b with | .Int => true | _ => false
  | .Bool, b => match b with | .Bool => true | _ => false
  | .Bytes32, b => match b with | .Bytes32 => true | _ => false
  | .EthAddress, b => match b with | .EthAddress => true | _ => false
  | .Any, b => match b with | .Any => true | _ => false
  | .Buffer, b => match b with | .Buffer => true | _ => false
  | .Every, b => match b with | .Every => true | _ => false
  | .Tuple v1, b => match b with | .Tuple v2 => tyListEq v1 v2 | _ => false
  | .Array a1, b => match b with | .Array a2 => tyEq a1 a2 | _ => false
  | .FixedArray a1 s1, b =>
    match b with | .FixedArray a2 s2 => (s1 == s2) && tyEq a1 a2 | _ => false
  | .Struct f1, b => match b with | .Struct f2 => fieldListEq f1 f2 | _ => false
  | .Map k1 v1, b => match b with | .Map k2 v2 => tyEq k1 k2 && tyEq v1 v2 | _ => false
  | .Func p1 a1 r1, b =>
    match b with
    | .Func p2 a2 r2 => funcPropertiesEq p1 p2 && tyListEq a1 a2 && tyEq r1 r2
    | _ => false
  | .Nominal p1 id1, b =>
    match b with | .Nominal p2 id2 => p1 == p2 && id1 == id2 | _ => false
  | .Generic id1 vars1, b =>
    match b with | .Generic id2 vars2 => id1 == id2 && tyListEq vars1 vars2 | _ => false
  | .Option x, b => match b with | .Option y => tyEq x y | _ => false
  | .Variable rp rid, b =>
    match b with | .Variable lp lid => rp == lp && rid == lid | _ => false
  | .Union x, b => match b with | .Union y => tyListEq x y | _ => false

/-- `type_vectors_equal` from `ast.rs` (slice equality, elementwise on the
custom `PartialEq`). -/
def tyListEq : List Ty → List Ty → Bool
  | [], [] => true
  | t1 :: r1, t2 :: r2 => tyEq t1 t2 && tyListEq r1 r2
  | _, _ => false

/-- `struct_field_vectors_equal` from `ast.rs`: the derived `PartialEq` on
`StructField` compares the name and then the type. -/
def fieldListEq : List (String × Ty) → List (String × Ty) → Bool
  | [], [] => true
  | f1 :: r1, f2 :: r2 => f1.1 == f2.1 && tyEq f1.2 f2.2 && fieldListEq r1 r2
  | _, _ => false

end

/-- The type tree from `ast.rs`: a map `(module path, StringId) → Type`
(the `String` payload of the Rust map is irrelevant to the relations and is
dropped).  Lookup is embedded as first match in an association list. -/
def TypeTree := List ((List String × Nat) × Ty)

/-- Lookup in the type tree (`HashMap::get`). -/
def TypeTree.find : TypeTree → List String → Nat → Option Ty
  | [], _, _ => none
  | (k, t) :: rest, path, id =>
    if k.1 == path && k.2 == id then some t else TypeTree.find rest path id

/-- `Type::get_representation` from `ast.rs`: follow `Nominal` links through
the type tree until a non-`Nominal` type is reached.  The Rust loop can fail
(`Err`) when a lookup misses, and can diverge on a cyclic chain of nominals;
`some none` embeds the `Err` case and `none` embeds divergence (fuel ran out). -/
def get_representation (fuel : Nat) (tt : TypeTree) : Ty → Option (Option Ty)
  | .Nominal path id =>
    match fuel with
    | 0 => none
    | n + 1 =>
      match tt.find path id with
      | none => some none
      | some t => get_representation n tt t
  | t => some (some t)

/-- The seen-pairs set threaded through the type relations (a `HashSet` of
`(Type, Type)` pairs in Rust, embedded as a list with membership tested by the
custom `PartialEq`). -/
def SeenSet := List (Ty × Ty)

/-- `HashSet::contains` on the seen set, with the custom equality. -/
def SeenSet.mem (seen : SeenSet) (l r : Ty) : Bool :=
  seen.any fun p => tyEq p.1 l && tyEq p.2 r

/-- `type_vectors_assignable` from `ast.rs`, parameterized by the recursive
call: lengths must agree and each right type must be assignable to the left
type at the same index.  The Rust `&&` and `Iterator::all` short-circuit, so a
panic or divergence (`none`) from a later element is never reached once a
`false` is seen, and the element loop is not entered when the lengths differ. -/
def type_vectors_assignable (rec : Ty → Ty → Option Bool) (tvec1 tvec2 : List Ty) :
    Option Bool :=
  if tvec1.length == tvec2.length then
    go tvec1 tvec2
  else
    some false
where
  go : List Ty → List Ty → Option Bool
    | [], _ => some true
    | _ :: _, [] => some true
    | t1 :: r1, t2 :: r2 =>
      match rec t1 t2 with
      | none => none
      | some false => some false
      | some true => go r1 r2

/-- `arg_vectors_assignable` from `ast.rs` ("Identical to
`type_vectors_assignable`"). -/
def arg_vectors_assignable (rec : Ty → Ty → Option Bool) (tvec1 tvec2 : List Ty) :
    Option Bool :=
  type_vectors_assignable rec tvec1 tvec2

/-- `field_vectors_assignable` from `ast.rs`: like `type_vectors_assignable`
on the field types, additionally requiring equal field names. -/
def field_vectors_assignable (rec : Ty → Ty → Option Bool)
    (tvec1 tvec2 : List (String × Ty)) : Option Bool :=
  if tvec1.length == tvec2.length then
    go tvec1 tvec2
  else
    some false
where
  go : List (String × Ty) → List (String × Ty) → Option Bool
    | [], _ => some true
    | _ :: _, [] => some true
    | f1 :: r1, f2 :: r2 =>
      match rec f1.2 f2.2 with
      | none => none
      | some false => some false
      | some true => if f1.1 == f2.1 then go r1 r2 else some false

/-- The `Generic` arm's `args.iter().zip(args2.iter()).all(|(left, right)|
left.assignable(right, ..) && right.assignable(left, ..))` from `ast.rs`
(mutual assignability of the generic arguments), parameterized by the
recursive call. -/
def mutual_arg_pairs (rec : Ty → Ty → Option Bool) : List Ty → List Ty → Option Bool
  | [], _ => some true
  | _ :: _, [] => some true
  | l :: ls, r :: rs =>
    match rec l r with
    | none => none
    | some false => some false
    | some true =>
      match rec r l with
      | none => none
      | some false => some false
      | some true => mutual_arg_pairs rec ls rs

/-- `Type::assignable` from `ast.rs`: may a value of type `rhs` be stored into
a location of type `self` (the first `Ty` argument), against `tt` and the seen
set?  Fuel is consumed on entry; all helper iterations happen at the entry's
[decremented] fuel, matching one unit of fuel per Rust recursive call.  The
`Type::Variable` arm is `unimplemented!()` in the source and is embedded as
`none` (no normal return). -/
def assignable (fuel : Nat) (tt : TypeTree) (self rhs : Ty) (seen : SeenSet) :
    Option Bool :=
  match fuel with
  | 0 => none
  | n + 1 =>
    if tyEq rhs .Every then some true
    else
      match self with
      | .Any => some (!tyEq rhs .Void)
      | .Void | .Uint | .Int | .Bool | .Bytes32 | .EthAddress | .Buffer | .Every =>
        some (tyEq self rhs)
      | .Variable _ _ => none
      | .Tuple tvec =>
        match get_representation n tt rhs with
        | none => none
        | some (some (.Tuple tvec2)) =>
          type_vectors_assignable (fun a b => assignable n tt a b seen) tvec tvec2
        | some _ => some false
      | .Array t =>
        match get_representation n tt rhs with
        | none => none
        | some (some (.Array t2)) => assignable n tt t t2 seen
        | some _ => some false
      | .FixedArray t s =>
        match get_representation n tt rhs with
        | none => none
        | some (some (.FixedArray t2 s2)) =>
          if s == s2 then assignable n tt t t2 seen else some false
        | some _ => some false
      | .Struct fields =>
        match get_representation n tt rhs with
        | none => none
        | some (some (.Struct fields2)) =>
          field_vectors_assignable (fun a b => assignable n tt a b seen) fields fields2
        | some _ => some false
      | .Nominal _ _ =>
        match get_representation n tt self, get_representation n tt rhs with
        | none, _ => none
        | _, none => none
        | some (some left), some (some right) =>
          if SeenSet.mem seen left right then some true
          else assignable n tt left right ((left, right) :: seen)
        | _, _ => some false
      | .Generic id args =>
        match rhs with
        | .Generic id2 args2 =>
          if id == id2 && args.length == args2.length then
            mutual_arg_pairs (fun a b => assignable n tt a b seen) args args2
          else some false
        | _ => some false
      | .Func prop args ret =>
        match rhs with
        | .Func prop2 args2 ret2 =>
          let (view1, write1) := prop.purity
          let (view2, write2) := prop2.purity
          if (view1 || !view2) && (write1 || !write2) then
            match arg_vectors_assignable (fun a b => assignable n tt a b seen) args2 args with
            | none => none
            | some false => some false
            | some true => assignable n tt ret ret2 seen
          else some false
        | _ => some false
      | .Map key1 val1 =>
        match rhs with
        | .Map key2 val2 =>
          match get_representation n tt val2 with
          | none => none
          | some none => some false
          | some (some val2') =>
            match assignable n tt key1 key2 seen with
            | none => none
            | some false => some false
            | some true => assignable n tt val1 val2' seen
        | _ => some false
      | .Option inner =>
        match get_representation n tt rhs with
        | none => none
        | some (some (.Option inner2)) => assignable n tt inner inner2 seen
        | some _ => some false
      | .Union types =>
        match get_representation n tt rhs with
        | none => none
        | some (some (.Union types2)) =>
          type_vectors_assignable (fun a b => assignable n tt a b seen) types types2
        | some _ => some false

/-- `TypeMismatch` from `ast.rs`: a structured description of the deepest
difference found by `Type::first_mismatch`. -/
inductive TypeMismatch where
  | Type (left right : Ty)
  | FieldName (left right : String)
  | FieldType (name : String) (inner : TypeMismatch)
  | UnresolvedRight (t : Ty)
  | UnresolvedLeft (t : Ty)
  | UnresolvedBoth (left right : Ty)
  | Length (left right : Nat)
  | ArrayMismatch (inner : TypeMismatch)
  | ArrayLength (left right : Nat)
  | Tuple (index : Nat) (inner : TypeMismatch)
  | TupleLength (left right : Nat)
  | FuncArg (index : Nat) (inner : TypeMismatch)
  | FuncArgLength (left right : Nat)
  | FuncReturn (inner : TypeMismatch)
  | Map (is_key : Bool) (inner : TypeMismatch)
  | Option (inner : TypeMismatch)
  | Union (index : Nat) (inner : TypeMismatch)
  | UnionLength (left right : Nat)
  | GenericName (left right : Nat)
  | GenericVar (index : Nat) (inner : TypeMismatch)
  | GenericLength (left right : Nat)
  | View
  | Write
  deriving Repr

/-- The result of an embedded `first_mismatch` call: `none` when the fuel ran
out, `some none` when the Rust function returns `None` (no mismatch), and
`some (some m)` when it returns `Some(m)`. -/
abbrev MismatchResult := Option (Option TypeMismatch)

/-- The zipped element loop of the `Tuple` / `Union` arms of
`Type::first_mismatch`: return the first inner mismatch (wrapped by `wrap`
with its index), parameterized by the recursive call. -/
def zip_index_mismatch (rec : Ty → Ty → MismatchResult)
    (wrap : Nat → TypeMismatch → TypeMismatch) :
    Nat → List Ty → List Ty → MismatchResult
  | _, [], _ => some none
  | _, _ :: _, [] => some none
  | index, l :: ls, r :: rs =>
    match rec l r with
    | none => none
    | some (some inner) => some (some (wrap index inner))
    | some none => zip_index_mismatch rec wrap (index + 1) ls rs

/-- `field_vectors_mismatch` from `ast.rs`: first field-type mismatch (as
`FieldType`), then field-name difference (as `FieldName`), and a `Length`
mismatch when the zipped prefix agrees but the lengths differ. -/
def field_vectors_mismatch (rec : Ty → Ty → MismatchResult)
    (tvec1 tvec2 : List (String × Ty)) : MismatchResult :=
  match go tvec1 tvec2 with
  | none => none
  | some (some m) => some (some m)
  | some none =>
    if tvec1.length != tvec2.length then
      some (some (.Length tvec1.length tvec2.length))
    else some none
where
  go : List (String × Ty) → List (String × Ty) → MismatchResult
    | f1 :: r1, f2 :: r2 =>
      match rec f1.2 f2.2 with
      | none => none
      | some (some inner) => some (some (.FieldType f1.1 inner))
      | some none =>
        if f1.1 == f2.1 then go r1 r2
        else some (some (.FieldName f1.1 f2.1))
    | _, _ => some none

/-- `Type::first_mismatch` from `ast.rs`: parallels `assignable` but returns a
structured `TypeMismatch` describing the deepest difference, or `None` when
there is none.  Note the differences from `assignable` that matter below: the
`Func` arm compares argument types covariantly (`left` against `right` in
source order), the `Generic` arm compares arguments one-way instead of
mutually, the `Variable` arm is a plain equality test instead of a panic, and
the `Nominal` arm inserts the original pair (not the representations) into the
seen set. -/
def first_mismatch (fuel : Nat) (tt : TypeTree) (self rhs : Ty) (seen : SeenSet) :
    MismatchResult :=
  match fuel with
  | 0 => none
  | n + 1 =>
    if tyEq rhs .Every then some none
    else
      match self with
      | .Any =>
        if !tyEq rhs .Void then some none
        else some (some (.Type .Any .Void))
      | .Void | .Uint | .Int | .Bool | .Bytes32 | .EthAddress | .Buffer | .Every
      | .Variable _ _ =>
        if tyEq self rhs then some none else some (some (.Type self rhs))
      | .Tuple tvec =>
        match get_representation n tt rhs with
        | none => none
        | some (some (.Tuple tvec2)) =>
          (match zip_index_mismatch (fun a b => first_mismatch n tt a b seen) .Tuple 0
              tvec tvec2 with
           | none => none
           | some (some m) => some (some m)
           | some none =>
             if tvec.length != tvec2.length then
               some (some (.TupleLength tvec.length tvec2.length))
             else some none)
        | some _ => some (some (.Type self rhs))
      | .Generic id types =>
        match rhs with
        | .Generic rid rtypes =>
          if id != rid then some (some (.GenericName id rid))
          else if types.length != rtypes.length then
            some (some (.GenericLength types.length rtypes.length))
          else
            zip_index_mismatch (fun a b => first_mismatch n tt a b seen) .GenericVar 0
              types rtypes
        | _ => some (some (.Type self rhs))
      | .Array t =>
        match get_representation n tt rhs with
        | none => none
        | some (some (.Array t2)) =>
          (first_mismatch n tt t t2 seen).map (·.map .ArrayMismatch)
        | some _ => some (some (.Type self rhs))
      | .FixedArray t s =>
        match get_representation n tt rhs with
        | none => none
        | some (some (.FixedArray t2 s2)) =>
          (match first_mismatch n tt t t2 seen with
           | none => none
           | some (some inner) => some (some (.ArrayMismatch inner))
           | some none =>
             if s != s2 then some (some (.ArrayLength s s2)) else some none)
        | some _ => some (some (.Type self rhs))
      | .Struct fields =>
        match get_representation n tt rhs with
        | none => none
        | some (some (.Struct fields2)) =>
          field_vectors_mismatch (fun a b => first_mismatch n tt a b seen) fields fields2
        | some _ => some (some (.Type self rhs))
      | .Nominal _ _ =>
        match get_representation n tt self, get_representation n tt rhs with
        | none, _ => none
        | _, none => none
        | some (some left), some (some right) =>
          if SeenSet.mem seen self rhs then some none
          else first_mismatch n tt left right ((self, rhs) :: seen)
        | some (some _), some none => some (some (.UnresolvedRight self))
        | some none, some (some _) => some (some (.UnresolvedLeft rhs))
        | some none, some none => some (some (.UnresolvedBoth self rhs))
      | .Func prop args ret =>
        match rhs with
        | .Func prop2 args2 ret2 =>
          let (view1, write1) := prop.purity
          let (view2, write2) := prop2.purity
          (match zip_index_mismatch (fun a b => first_mismatch n tt a b seen) .FuncArg 0
              args args2 with
           | none => none
           | some (some m) => some (some m)
           | some none =>
             if args.length != args2.length then
               some (some (.FuncArgLength args.length args2.length))
             else
               match first_mismatch n tt ret ret2 seen with
               | none => none
               | some (some inner) => some (some (.FuncReturn inner))
               | some none =>
                 if !view1 && view2 then some (some .View)
                 else if !write1 && write2 then some (some .Write)
                 else some none)
        | _ => some (some (.Type self rhs))
      | .Map key1 val1 =>
        match rhs with
        | .Map key2 val2 =>
          match get_representation n tt val2 with
          | none => none
          | some none => some (some (.Type self rhs))
          | some (some val2') =>
            (match first_mismatch n tt key1 key2 seen with
             | none => none
             | some (some m) => some (some (.Map true m))
             | some none =>
               match first_mismatch n tt val1 val2' seen with
               | none => none
               | some (some m) => some (some (.Map false m))
               | some none => some none)
        | _ => some (some (.Type self rhs))
      | .Option inner =>
        match get_representation n tt rhs with
        | none => none
        | some (some (.Option inner2)) =>
          (first_mismatch n tt inner inner2 seen).map (·.map .Option)
        | some _ => some (some (.Type self rhs))
      | .Union types =>
        match get_representation n tt rhs with
        | none => none
        | some (some (.Union types2)) =>
          (match zip_index_mismatch (fun a b => first_mismatch n tt a b seen) .Union 0
              types types2 with
           | none => none
           | some (some m) => some (some m)
           | some none =>
             if types.length != types2.length then
               some (some (.UnionLength types.length types2.length))
             else some none)
        | some _ => some (some (.Type self rhs))

/-! ## The 256-bit integer model

`Uint256` lives in `src/uint256.rs`, which is not part of the sources under
review; the definitions below are modelled from the spec.  Modelled from the
spec: "exact 256-bit host arithmetic", with "overflow on subtraction,
divide/mod by zero" as the failing cases (`sub`, `div`, `modulo`, `sdiv`,
`smodulo` return `None` exactly there); signed operations interpret the 256
bits in two's complement and truncate toward zero as Rust's integer division
does.  A `Uint256` value is embedded as a `Nat` below `2^256`. -/

/-- The modulus of 256-bit arithmetic. -/
def U256LIM : Nat := 2 ^ 256

/-- 2^255, the boundary between non-negative and negative two's-complement
values. -/
def U255LIM : Nat := 2 ^ 255

/-- `Uint256::add`: wrapping 256-bit addition. -/
def u256_add (a b : Nat) : Nat := (a + b) % U256LIM

/-- `Uint256::sub`: `None` on underflow. -/
def u256_sub (a b : Nat) : Option Nat := if a < b then none else some (a - b)

/-- `Uint256::mul`: wrapping 256-bit multiplication. -/
def u256_mul (a b : Nat) : Nat := (a * b) % U256LIM

/-- `Uint256::div`: `None` on a zero divisor. -/
def u256_div (a b : Nat) : Option Nat := if b == 0 then none else some (a / b)

/-- `Uint256::modulo`: `None` on a zero divisor. -/
def u256_modulo (a b : Nat) : Option Nat := if b == 0 then none else some (a % b)

/-- The two's-complement reading of a 256-bit value. -/
def u256_to_signed (a : Nat) : Int := if a < U255LIM then (a : Int) else (a : Int) - (U256LIM : Int)

/-- The 256-bit value of a signed integer (mod `2^256`). -/
def u256_of_signed (i : Int) : Nat := (i % (U256LIM : Int)).toNat

/-- `Uint256::sdiv`: signed division truncating toward zero (`tdiv`), `None`
on a zero divisor. -/
def u256_sdiv (a b : Nat) : Option Nat :=
  if b == 0 then none
  else some (u256_of_signed (Int.tdiv (u256_to_signed a) (u256_to_signed b)))

/-- `Uint256::smodulo`: signed remainder (truncated), `None` on a zero
divisor. -/
def u256_smodulo (a b : Nat) : Option Nat :=
  if b == 0 then none
  else some (u256_of_signed (Int.tmod (u256_to_signed a) (u256_to_signed b)))

/-- `Uint256::s_less_than`: signed comparison. -/
def u256_s_less_than (a b : Nat) : Bool := u256_to_signed a < u256_to_signed b

/-- `Uint256::from_bool`. -/
def u256_from_bool (b : Bool) : Nat := if b then 1 else 0

/-- `Uint256::bitwise_and`. -/
def u256_bitwise_and (a b : Nat) : Nat := Nat.land a b

/-- `Uint256::bitwise_or`. -/
def u256_bitwise_or (a b : Nat) : Nat := Nat.lor a b

/-- `Uint256::bitwise_xor`. -/
def u256_bitwise_xor (a b : Nat) : Nat := Nat.xor a b

/-- `Uint256::shift_left`, truncated to 256 bits. -/
def u256_shift_left (a : Nat) (k : Nat) : Nat := (a <<< k) % U256LIM

/-- `Uint256::shift_right`. -/
def u256_shift_right (a : Nat) (k : Nat) : Nat := a >>> k

/-- `Uint256::to_usize`: `None` when the value does not fit a 64-bit `usize`. -/
def u256_to_usize (a : Nat) : Option Nat := if a < 2 ^ 64 then some a else none

/-- `Uint256::is_zero`. -/
def u256_is_zero (a : Nat) : Bool := a == 0

/-! ## The binary-operator type checker -/

/-- `BinaryOp` from `ast.rs`.  The source variant `_LogicalAnd` is spelled
`LogicalAnd` here. -/
inductive BinaryOp where
  | Plus
  | Minus
  | Times
  | Div
  | Mod
  | Sdiv
  | Smod
  | LessThan
  | GreaterThan
  | LessEq
  | GreaterEq
  | SLessThan
  | SGreaterThan
  | SLessEq
  | SGreaterEq
  | Equal
  | NotEqual
  | BitwiseAnd
  | BitwiseOr
  | BitwiseXor
  | ShiftLeft
  | ShiftRight
  | LogicalAnd
  | LogicalOr
  | Hash
  | GetBuffer8
  | GetBuffer64
  | GetBuffer256
  deriving Repr, DecidableEq

/-- A reduced form of `TypeCheckedExpr` from `typecheck.rs`, carrying exactly
the structure `typecheck_binary_op` and the `MapDelete` arm of
`typecheck_expr` observe: `Const` embeds
`TypeCheckedExprKind::Const(Value::Int(val), tipe)`, and `Opaque` stands for
every other already-type-checked expression kind, of which those functions
only ever read the result type (`get_type`); the `id` tag lets distinct
opaque operands be told apart.  `Binary` and `MapDelete` are the output nodes
built by those functions. -/
inductive TCExpr where
  | Const (val : Nat) (tipe : Ty)
  | Opaque (id : Nat) (tipe : Ty)
  | Binary (op : BinaryOp) (left right : TCExpr) (tipe : Ty)
  | MapDelete (map key : TCExpr) (tipe : Ty)
  deriving Repr

/-- `TypeCheckedExpr::get_type`. -/
def TCExpr.get_type : TCExpr → Ty
  | .Const _ t => t
  | .Opaque _ t => t
  | .Binary _ _ _ t => t
  | .MapDelete _ _ t => t

/-- The result of an embedded type-checking function: `none` embeds a
`panic!`, `some (.error ())` a `CompileError` (the message is irrelevant
here), and `some (.ok e)` a successfully built node. -/
abbrev TCResult := Option (Except Unit TCExpr)

/-- `typecheck_binary_op_const` from `typecheck.rs`: the constant folder used
when both operands are integer constants.  `h2` stands for
`Value::avm_hash2` (defined outside the reviewed sources and only reached by
the `Hash` arm, which no claim constrains). -/
def typecheck_binary_op_const (h2 : Nat → Nat → Nat) (op : BinaryOp)
    (val1 : Nat) (t1 : Ty) (val2 : Nat) (t2 : Ty) : TCResult :=
  match op with
  | .Plus | .Minus | .Times =>
    match t1, t2 with
    | .Uint, .Uint | .Int, .Int =>
      (match op with
       | .Plus => some (.ok (.Const (u256_add val1 val2) t1))
       | .Minus =>
         (match u256_sub val1 val2 with
          | some v => some (.ok (.Const v t1))
          | none => some (.error ()))
       | .Times => some (.ok (.Const (u256_mul val1 val2) t1))
       | _ => none)
    | _, _ => some (.error ())
  | .Div =>
    match t1, t2 with
    | .Uint, .Uint =>
      (match u256_div val1 val2 with
       | some v => some (.ok (.Const v t1))
       | none => some (.error ()))
    | .Int, .Int =>
      (match u256_sdiv val1 val2 with
       | some v => some (.ok (.Const v t1))
       | none => some (.error ()))
    | _, _ => some (.error ())
  | .Mod =>
    match t1, t2 with
    | .Uint, .Uint =>
      (match u256_modulo val1 val2 with
       | some v => some (.ok (.Const v t1))
       | none => some (.error ()))
    | .Int, .Int =>
      (match u256_smodulo val1 val2 with
       | some v => some (.ok (.Const v t1))
       | none => some (.error ()))
    | _, _ => some (.error ())
  | .LessThan =>
    match t1, t2 with
    | .Uint, .Uint => some (.ok (.Const (u256_from_bool (val1 < val2)) .Bool))
    | .Int, .Int => some (.ok (.Const (u256_from_bool (u256_s_less_than val1 val2)) .Bool))
    | _, _ => some (.error ())
  | .GreaterThan =>
    match t1, t2 with
    | .Uint, .Uint => some (.ok (.Const (u256_from_bool (val2 < val1)) .Bool))
    | .Int, .Int => some (.ok (.Const (u256_from_bool (u256_s_less_than val2 val1)) .Bool))
    | _, _ => some (.error ())
  | .LessEq =>
    match t1, t2 with
    | .Uint, .Uint => some (.ok (.Const (u256_from_bool (val1 ≤ val2)) .Bool))
    | .Int, .Int => some (.ok (.Const (u256_from_bool (!u256_s_less_than val2 val1)) .Bool))
    | _, _ => some (.error ())
  | .GreaterEq =>
    match t1, t2 with
    | .Uint, .Uint => some (.ok (.Const (u256_from_bool (val2 ≤ val1)) .Bool))
    | .Int, .Int => some (.ok (.Const (u256_from_bool (!u256_s_less_than val1 val2)) .Bool))
    | _, _ => some (.error ())
  | .Equal | .NotEqual | .BitwiseAnd | .BitwiseOr | .BitwiseXor | .Hash =>
    if tyEq t1 t2 then
      match op with
      | .Equal => some (.ok (.Const (u256_from_bool (val1 == val2)) .Bool))
      | .NotEqual => some (.ok (.Const (u256_from_bool (val1 != val2)) .Bool))
      | .BitwiseAnd => some (.ok (.Const (u256_bitwise_and val1 val2) .Bool))
      | .BitwiseOr => some (.ok (.Const (u256_bitwise_or val1 val2) .Bool))
      | .BitwiseXor => some (.ok (.Const (u256_bitwise_xor val1 val2) .Bool))
      | .Hash =>
        (match t1 with
         | .Bytes32 => some (.ok (.Const (h2 val1 val2) .Bool))
         | _ => some (.error ()))
      | _ => none
    else some (.error ())
  | .LogicalAnd =>
    if tyEq t1 .Bool && tyEq t2 .Bool then
      some (.ok (.Const (u256_from_bool (!u256_is_zero val1 && !u256_is_zero val2)) .Bool))
    else some (.error ())
  | .LogicalOr =>
    if tyEq t1 .Bool && tyEq t2 .Bool then
      some (.ok (.Const (u256_from_bool (!u256_is_zero val1 || !u256_is_zero val2)) .Bool))
    else some (.error ())
  | .ShiftLeft | .ShiftRight =>
    if tyEq t1 .Uint then
      match t2 with
      | .Uint | .Int | .Bytes32 =>
        (match u256_to_usize val1 with
         | none => some (.error ())
         | some x =>
           if op == .ShiftLeft then
             some (.ok (.Const (u256_shift_left val2 x) t1))
           else
             some (.ok (.Const (u256_shift_right val2 x) t1)))
      | _ => some (.error ())
    else some (.error ())
  | .Smod | .GetBuffer8 | .GetBuffer64 | .GetBuffer256 | .Sdiv
  | .SLessThan | .SGreaterThan | .SLessEq | .SGreaterEq => none

/-- The type-dispatch part of `typecheck_binary_op` from `typecheck.rs` (the
big `match op` after the operand types have been resolved through
`get_representation`): chooses the (possibly sign-specialized) emitted
operator and the result type, or reports a type error.  `s1`/`s2` are the
resolved representations of the operand types. -/
def typecheck_binary_op_resolved (op : BinaryOp) (tcs1 tcs2 : TCExpr) (s1 s2 : Ty) :
    TCResult :=
  match op with
  | .Plus | .Minus | .Times =>
    match s1, s2 with
    | .Uint, .Uint => some (.ok (.Binary op tcs1 tcs2 .Uint))
    | .Int, .Int => some (.ok (.Binary op tcs1 tcs2 .Int))
    | _, _ => some (.error ())
  | .Div =>
    match s1, s2 with
    | .Uint, .Uint => some (.ok (.Binary op tcs1 tcs2 .Uint))
    | .Int, .Int => some (.ok (.Binary .Sdiv tcs1 tcs2 .Int))
    | _, _ => some (.error ())
  | .GetBuffer8 =>
    match s1, s2 with
    | .Uint, .Buffer => some (.ok (.Binary op tcs1 tcs2 .Uint))
    | _, _ => some (.error ())
  | .GetBuffer64 =>
    match s1, s2 with
    | .Uint, .Buffer => some (.ok (.Binary op tcs1 tcs2 .Uint))
    | _, _ => some (.error ())
  | .GetBuffer256 =>
    match s1, s2 with
    | .Uint, .Buffer => some (.ok (.Binary op tcs1 tcs2 .Uint))
    | _, _ => some (.error ())
  | .Mod =>
    match s1, s2 with
    | .Uint, .Uint => some (.ok (.Binary op tcs1 tcs2 .Uint))
    | .Int, .Int => some (.ok (.Binary .Smod tcs1 tcs2 .Int))
    | _, _ => some (.error ())
  | .LessThan =>
    match s1, s2 with
    | .Uint, .Uint => some (.ok (.Binary op tcs1 tcs2 .Bool))
    | .Int, .Int => some (.ok (.Binary .SLessThan tcs1 tcs2 .Bool))
    | _, _ => some (.error ())
  | .GreaterThan =>
    match s1, s2 with
    | .Uint, .Uint => some (.ok (.Binary op tcs1 tcs2 .Bool))
    | .Int, .Int => some (.ok (.Binary .SGreaterThan tcs1 tcs2 .Bool))
    | _, _ => some (.error ())
  | .LessEq =>
    match s1, s2 with
    | .Uint, .Uint => some (.ok (.Binary op tcs1 tcs2 .Bool))
    | .Int, .Int => some (.ok (.Binary .SLessEq tcs1 tcs2 .Bool))
    | _, _ => some (.error ())
  | .GreaterEq =>
    match s1, s2 with
    | .Uint, .Uint => some (.ok (.Binary op tcs1 tcs2 .Bool))
    | .Int, .Int => some (.ok (.Binary .SGreaterEq tcs1 tcs2 .Bool))
    | _, _ => some (.error ())
  | .Equal | .NotEqual =>
    if !tyEq s1 .Void && !tyEq s2 .Void
        && (tyEq s1 .Any || tyEq s2 .Any || tyEq s1 s2) then
      some (.ok (.Binary op tcs1 tcs2 .Bool))
    else some (.error ())
  | .BitwiseAnd | .BitwiseOr | .BitwiseXor | .ShiftLeft | .ShiftRight =>
    match s1, s2 with
    | .Uint, .Uint => some (.ok (.Binary op tcs1 tcs2 .Uint))
    | .Int, .Int => some (.ok (.Binary op tcs1 tcs2 .Int))
    | .Bytes32, .Bytes32 => some (.ok (.Binary op tcs1 tcs2 .Bytes32))
    | _, _ => some (.error ())
  | .LogicalAnd | .LogicalOr =>
    match s1, s2 with
    | .Bool, .Bool => some (.ok (.Binary op tcs1 tcs2 .Bool))
    | _, _ => some (.error ())
  | .Hash =>
    match s1, s2 with
    | .Bytes32, .Bytes32 => some (.ok (.Binary op tcs1 tcs2 .Bytes32))
    | _, _ => some (.error ())
  | .Smod | .Sdiv | .SLessThan | .SGreaterThan | .SLessEq | .SGreaterEq => none

/-- The resolution step of `typecheck_binary_op`: take the representations of
both operand types (propagating a `CompileError` from `get_representation`
through the `?` operator) and dispatch. -/
def typecheck_binary_op_dispatch (fuel : Nat) (tt : TypeTree) (op' : BinaryOp)
    (e1 e2 : TCExpr) : TCResult :=
  match get_representation fuel tt e1.get_type with
  | none => none
  | some none => some (.error ())
  | some (some s1) =>
    match get_representation fuel tt e2.get_type with
    | none => none
    | some none => some (.error ())
    | some (some s2) => typecheck_binary_op_resolved op' e1 e2 s1 s2

/-- `typecheck_binary_op` from `typecheck.rs`.  When the right operand is an
integer constant: if the left one is too, the operation is folded at compile
time (`typecheck_binary_op_const`), except for the buffer reads; otherwise
the operands are swapped for the commutative operators `+`, `*`, `==`, `!=`,
`&`, `|`, `^` (placing the constant first) and for the comparison operators,
which are additionally flipped.  The surviving operands are then dispatched
on their resolved types.  `fuel` feeds `get_representation`. -/
def typecheck_binary_op (h2 : Nat → Nat → Nat) (fuel : Nat) (op : BinaryOp)
    (tcs1 tcs2 : TCExpr) (tt : TypeTree) : TCResult :=
  let dispatch : BinaryOp → TCExpr → TCExpr → TCResult := fun op' e1 e2 =>
    typecheck_binary_op_dispatch fuel tt op' e1 e2
  match tcs2 with
  | .Const val2 t2 =>
    (match tcs1 with
     | .Const val1 t1 =>
       (match op with
        | .GetBuffer256 | .GetBuffer64 | .GetBuffer8 => dispatch op tcs1 tcs2
        | _ => typecheck_binary_op_const h2 op val1 t1 val2 t2)
     | _ =>
       (match op with
        | .Plus | .Times | .Equal | .NotEqual | .BitwiseAnd | .BitwiseOr | .BitwiseXor =>
          dispatch op tcs2 tcs1
        | .LessThan => dispatch .GreaterThan tcs2 tcs1
        | .GreaterThan => dispatch .LessThan tcs2 tcs1
        | .LessEq => dispatch .GreaterEq tcs2 tcs1
        | .GreaterEq => dispatch .LessEq tcs2 tcs1
        | _ => dispatch op tcs1 tcs2))
  | _ => dispatch op tcs1 tcs2

/-! ## Statement and expression arms -/

/-- The `ReturnVoid` arm of `typecheck_statement` from `typecheck.rs`: the
statement checks iff `Type::Void.assignable(return_type)` holds (with a fresh
seen set). -/
def typecheck_statement_return_void (fuel : Nat) (return_type : Ty) (tt : TypeTree) :
    Option (Except Unit Unit) :=
  match assignable fuel tt .Void return_type [] with
  | none => none
  | some true => some (.ok ())
  | some false => some (.error ())

/-- The `MapDelete` arm of `typecheck_expr` from `typecheck.rs`: the map
operand's type must be literally a `Map`, and the key expression's type must
accept the map's declared key type
(`key_type.assignable(map_key_type, ..)`); the emitted node carries the map's
type. -/
def typecheck_expr_map_delete (fuel : Nat) (tt : TypeTree) (map key : TCExpr) : TCResult :=
  let map_type := map.get_type
  let key_type := key.get_type
  match map_type with
  | .Map map_key_type _ =>
    (match assignable fuel tt key_type map_key_type [] with
     | none => none
     | some false => some (.error ())
     | some true => some (.ok (.MapDelete map key map_type)))
  | _ => some (.error ())

/-! ## Global-variable ordering -/

/-- `GlobalVarDecl` as used by `typecheck_top_level_decls` (name, interned
name id, declared type). -/
structure GlobalVarDecl where
  name : String
  name_id : Nat
  tipe : Ty
  deriving Repr

/-- Rust's `Iterator::position`: index of the first element satisfying the
predicate. -/
def iter_position (p : α → Bool) : List α → Option Nat
  | [] => none
  | a :: rest => if p a then some 0 else (iter_position p rest).map (· + 1)

/-- Rust's `Vec::swap` on a list (identity when an index is out of range,
which `typecheck_top_level_decls` never triggers). -/
def vec_swap (l : List α) (i j : Nat) : List α :=
  match l.get? i, l.get? j with
  | some a, some b => (l.set i b).set j a
  | _, _ => l

/-- The global-variable reordering at the top of `typecheck_top_level_decls`
in `typecheck.rs`: if some declaration is named exactly
`__fixedLocationGlobal`, swap it with position zero. -/
def order_global_vars (global_vars : List GlobalVarDecl) : List GlobalVarDecl :=
  match iter_position (fun var => var.name == "__fixedLocationGlobal") global_vars with
  | some var => vec_swap global_vars 0 var
  | none => global_vars

/-- The slot numbering built right below the reordering: `enumerate` maps each
declaration's `name_id` to its type and slot index, which is what
`GlobalVariableRef` / `AssignGlobal` nodes later use. -/
def global_vars_map (global_vars : List GlobalVarDecl) : List (Nat × (Ty × Nat)) :=
  global_vars.enum.map fun p => (p.2.name_id, (p.2.tipe, p.1))

/-! ## Size measures and structural predicates

These are proof-side definitions (not from the source): `tsize` bounds the
recursion depth of the relations on the left type, and the predicates carve
out the fragments of the type language on which the amended claims below are
stated. -/

mutual

/-- Size of a type (each constructor counts one). -/
def tsize : Ty → Nat
  | .Tuple ts => 1 + tsizeList ts
  | .Array t => 1 + tsize t
  | .FixedArray t _ => 1 + tsize t
  | .Struct fs => 1 + tsizeFields fs
  | .Generic _ args => 1 + tsizeList args
  | .Func _ args ret => 1 + tsizeList args + tsize ret
  | .Map k v => 1 + tsize k + tsize v
  | .Option t => 1 + tsize t
  | .Union ts => 1 + tsizeList ts
  | _ => 1

/-- Total size of a list of types. -/
def tsizeList : List Ty → Nat
  | [] => 0
  | t :: r => tsize t + tsizeList r

/-- Total size of a struct-field list. -/
def tsizeFields : List (String × Ty) → Nat
  | [] => 0
  | f :: r => tsize f.2 + tsizeFields r

end

mutual

/-- `true` iff the type contains no `Variable` and no `Nominal` anywhere. -/
def noVarNom : Ty → Bool
  | .Variable _ _ => false
  | .Nominal _ _ => false
  | .Tuple ts => noVarNomList ts
  | .Union ts => noVarNomList ts
  | .Generic _ args => noVarNomList args
  | .Array t => noVarNom t
  | .FixedArray t _ => noVarNom t
  | .Option t => noVarNom t
  | .Struct fs => noVarNomFields fs
  | .Func _ args ret => noVarNomList args && noVarNom ret
  | .Map k v => noVarNom k && noVarNom v
  | _ => true

/-- `noVarNom` over a list of types. -/
def noVarNomList : List Ty → Bool
  | [] => true
  | t :: r => noVarNom t && noVarNomList r

/-- `noVarNom` over a struct-field list. -/
def noVarNomFields : List (String × Ty) → Bool
  | [] => true
  | f :: r => noVarNom f.2 && noVarNomFields r

end

mutual

/-- `true` iff the type is built only from the structural constructors:
no `Variable`, `Nominal`, `Generic` or `Func` anywhere. -/
def structuralTy : Ty → Bool
  | .Variable _ _ => false
  | .Nominal _ _ => false
  | .Generic _ _ => false
  | .Func _ _ _ => false
  | .Tuple ts => structuralList ts
  | .Union ts => structuralList ts
  | .Array t => structuralTy t
  | .FixedArray t _ => structuralTy t
  | .Option t => structuralTy t
  | .Struct fs => structuralFields fs
  | .Map k v => structuralTy k && structuralTy v
  | _ => true

/-- `structuralTy` over a list of types. -/
def structuralList : List Ty → Bool
  | [] => true
  | t :: r => structuralTy t && structuralList r

/-- `structuralTy` over a struct-field list. -/
def structuralFields : List (String × Ty) → Bool
  | [] => true
  | f :: r => structuralTy f.2 && structuralFields r

end

/-! ## Operator classes and the spec-side constant folder -/

/-- The commutative operators whose constant operand `typecheck_binary_op`
moves by swapping (`+`, `*`, `==`, `!=`, `&`, `|`, `^`). -/
def commutative_swap_ops : List BinaryOp :=
  [.Plus, .Times, .Equal, .NotEqual, .BitwiseAnd, .BitwiseOr, .BitwiseXor]

/-- The comparison operators that `typecheck_binary_op` flips when swapping. -/
def comparison_swap_ops : List BinaryOp :=
  [.LessThan, .GreaterThan, .LessEq, .GreaterEq]

/-- The flipped form of a comparison operator (`<` ↔ `>`, `<=` ↔ `>=`),
as performed by the swap in `typecheck_binary_op`. -/
def comparison_flip : BinaryOp → BinaryOp
  | .LessThan => .GreaterThan
  | .GreaterThan => .LessThan
  | .LessEq => .GreaterEq
  | .GreaterEq => .LessEq
  | op => op

/-- The signed specialization an operator receives on `(Int, Int)` operands in
`typecheck_binary_op` (identity for operators that have no signed variant). -/
def signed_variant : BinaryOp → BinaryOp
  | .Div => .Sdiv
  | .Mod => .Smod
  | .LessThan => .SLessThan
  | .GreaterThan => .SGreaterThan
  | .LessEq => .SLessEq
  | .GreaterEq => .SGreaterEq
  | op => op

/-- The surface binary operators that accept two integer operands of the same
type and get constant-folded without further side conditions (the shifts are
deliberately excluded; see the C8 counterexample). -/
def constant_foldable_ops : List BinaryOp :=
  [.Plus, .Minus, .Times, .Div, .Mod, .LessThan, .GreaterThan, .LessEq, .GreaterEq,
   .Equal, .NotEqual, .BitwiseAnd, .BitwiseOr, .BitwiseXor]

/-- The spec's description of constant folding, stated independently of the
implementation: for operands of integer type `T`, the folded value is the
host 256-bit result of the operator (signed reading of comparisons and
division for `Int`), and the fold is undefined (`none`) exactly on
subtraction underflow and division/modulus by zero. -/
def spec_constant_fold : BinaryOp → Ty → Nat → Nat → Option Nat
  | .Plus, _, a, b => some (u256_add a b)
  | .Minus, _, a, b => u256_sub a b
  | .Times, _, a, b => some (u256_mul a b)
  | .Div, .Int, a, b => u256_sdiv a b
  | .Div, _, a, b => u256_div a b
  | .Mod, .Int, a, b => u256_smodulo a b
  | .Mod, _, a, b => u256_modulo a b
  | .LessThan, .Int, a, b => some (u256_from_bool (u256_to_signed a < u256_to_signed b))
  | .LessThan, _, a, b => some (u256_from_bool (a < b))
  | .GreaterThan, .Int, a, b => some (u256_from_bool (u256_to_signed b < u256_to_signed a))
  | .GreaterThan, _, a, b => some (u256_from_bool (b < a))
  | .LessEq, .Int, a, b => some (u256_from_bool (u256_to_signed a ≤ u256_to_signed b))
  | .LessEq, _, a, b => some (u256_from_bool (a ≤ b))
  | .GreaterEq, .Int, a, b => some (u256_from_bool (u256_to_signed b ≤ u256_to_signed a))
  | .GreaterEq, _, a, b => some (u256_from_bool (b ≤ a))
  | .Equal, _, a, b => some (u256_from_bool (a == b))
  | .NotEqual, _, a, b => some (u256_from_bool (a != b))
  | .BitwiseAnd, _, a, b => some (u256_bitwise_and a b)
  | .BitwiseOr, _, a, b => some (u256_bitwise_or a b)
  | .BitwiseXor, _, a, b => some (u256_bitwise_xor a b)
  | _, _, _, _ => none

/-- The type annotation the constant folder puts on its result: the operand
type for the arithmetic operators, and `Bool` for everything else it folds
(note: the code annotates the folded bitwise operators with `Bool` too, even
though their values are operand-typed — the claim constrains only the folded
value). -/
def const_fold_result_type : BinaryOp → Ty → Ty
  | .Plus, T | .Minus, T | .Times, T | .Div, T | .Mod, T => T
  | _, _ => .Bool

/-- A concrete stand-in for `Value::avm_hash2` used when evaluating the
checker on closed inputs (no claim constrains the hash). -/
def avm_hash2_any : Nat → Nat → Nat := fun _ _ => 0

/-- Pointwise agreement hypothesis used below: on every zipped pair, the
element-level `assignable` and `first_mismatch` both return, and agree. -/
def PairAgree (recA : Ty → Ty → Option Bool) (recM : Ty → Ty → MismatchResult)
    (ts ts2 : List Ty) : Prop :=
  ∀ a b, (a, b) ∈ ts.zip ts2 →
    ∃ bb rm, recA a b = some bb ∧ recM a b = some rm ∧ (rm = none ↔ bb = true)

lemma tsize_pos (t : Ty) : 1 ≤ tsize t := by
  cases t <;> simp [tsize] <;> omega

lemma tsize_mem_le {t : Ty} {ts : List Ty} (h : t ∈ ts) : tsize t ≤ tsizeList ts := by
  induction ts with
  | nil => cases h
  | cons a r ih =>
    rcases List.mem_cons.mp h with rfl | h'
    · simp only [tsizeList]; omega
    · have := ih h'
      simp only [tsizeList]; omega

lemma tsize_field_mem_le {f : String × Ty} {fs : List (String × Ty)} (h : f ∈ fs) :
    tsize f.2 ≤ tsizeFields fs := by
  induction fs with
  | nil => cases h
  | cons a r ih =>
    rcases List.mem_cons.mp h with rfl | h'
    · simp only [tsizeFields]; omega
    · have := ih h'
      simp only [tsizeFields]; omega

lemma noVarNomList_mem {t : Ty} {ts : List Ty} (h : t ∈ ts) (hl : noVarNomList ts = true) :
    noVarNom t = true := by
  induction ts with
  | nil => cases h
  | cons a r ih =>
    simp only [noVarNomList, Bool.and_eq_true] at hl
    rcases List.mem_cons.mp h with rfl | h'
    · exact hl.1
    · exact ih h' hl.2

lemma noVarNomFields_mem {f : String × Ty} {fs : List (String × Ty)} (h : f ∈ fs)
    (hl : noVarNomFields fs = true) : noVarNom f.2 = true := by
  induction fs with
  | nil => cases h
  | cons a r ih =>
    simp only [noVarNomFields, Bool.and_eq_true] at hl
    rcases List.mem_cons.mp h with rfl | h'
    · exact hl.1
    · exact ih h' hl.2

lemma structuralList_mem {t : Ty} {ts : List Ty} (h : t ∈ ts) (hl : structuralList ts = true) :
    structuralTy t = true := by
  induction ts with
  | nil => cases h
  | cons a r ih =>
    simp only [structuralList, Bool.and_eq_true] at hl
    rcases List.mem_cons.mp h with rfl | h'
    · exact hl.1
    · exact ih h' hl.2

lemma structuralFields_mem {f : String × Ty} {fs : List (String × Ty)} (h : f ∈ fs)
    (hl : structuralFields fs = true) : structuralTy f.2 = true := by
  induction fs with
  | nil => cases h
  | cons a r ih =>
    simp only [structuralFields, Bool.and_eq_true] at hl
    rcases List.mem_cons.mp h with rfl | h'
    · exact hl.1
    · exact ih h' hl.2


/-- A type with no `Nominal` head is its own representation. -/
lemma get_representation_of_noVarNom {t : Ty} (h : noVarNom t = true) (n : Nat)
    (tt : TypeTree) : get_representation n tt t = some (some t) := by
  cases t <;> simp_all [get_representation, noVarNom]

/-- A structural type is its own representation. -/
lemma get_representation_of_structural {t : Ty} (h : structuralTy t = true) (n : Nat)
    (tt : TypeTree) : get_representation n tt t = some (some t) := by
  cases t <;> simp_all [get_representation, structuralTy]

lemma funcPropertiesEq_refl (p : FuncProperties) : funcPropertiesEq p p = true := by
  simp [funcPropertiesEq]

/-- `tyEq t .Every` decides `t = Every`. -/
lemma tyEq_every_iff (t : Ty) : tyEq t .Every = true ↔ t = .Every := by
  cases t <;> simp [tyEq]

/-- Reflexivity of the custom `PartialEq` on types (helper for several
claims). -/
lemma tyEq_refl : ∀ t : Ty, tyEq t t = true := by
  have main : ∀ n, ∀ t : Ty, tsize t ≤ n → tyEq t t = true := by
    intro n
    induction n with
    | zero => intro t h; exact absurd h (by have := tsize_pos t; omega)
    | succ m IH =>
      have listRefl : ∀ ts : List Ty, (∀ t ∈ ts, tyEq t t = true) → tyListEq ts ts = true := by
        intro ts h
        induction ts with
        | nil => simp [tyListEq]
        | cons a r ih =>
          simp only [tyListEq, Bool.and_eq_true]
          exact ⟨h a (by simp), ih fun t ht => h t (by simp [ht])⟩
      have fieldRefl : ∀ fs : List (String × Ty), (∀ f ∈ fs, tyEq f.2 f.2 = true) →
          fieldListEq fs fs = true := by
        intro fs h
        induction fs with
        | nil => simp [fieldListEq]
        | cons a r ih =>
          simp only [fieldListEq, Bool.and_eq_true]
          exact ⟨⟨by simp, h a (by simp)⟩, ih fun f hf => h f (by simp [hf])⟩
      intro t ht
      cases t with
      | Tuple ts =>
        simp only [tyEq]
        refine listRefl ts fun t' ht' => IH t' ?_
        have h1 := tsize_mem_le ht'
        simp only [tsize] at ht; omega
      | Union ts =>
        simp only [tyEq]
        refine listRefl ts fun t' ht' => IH t' ?_
        have h1 := tsize_mem_le ht'
        simp only [tsize] at ht; omega
      | Generic id args =>
        simp only [tyEq, Bool.and_eq_true]
        refine ⟨by simp, listRefl args fun t' ht' => IH t' ?_⟩
        have h1 := tsize_mem_le ht'
        simp only [tsize] at ht; omega
      | Array t' =>
        simp only [tyEq]
        refine IH t' ?_
        simp only [tsize] at ht; omega
      | FixedArray t' s =>
        simp only [tyEq, Bool.and_eq_true]
        refine ⟨by simp, IH t' ?_⟩
        simp only [tsize] at ht; omega
      | Option t' =>
        simp only [tyEq]
        refine IH t' ?_
        simp only [tsize] at ht; omega
      | Struct fs =>
        simp only [tyEq]
        refine fieldRefl fs fun f hf => IH f.2 ?_
        have h1 := tsize_field_mem_le hf
        simp only [tsize] at ht; omega
      | Map k v =>
        simp only [tyEq, Bool.and_eq_true]
        constructor
        · refine IH k ?_
          simp only [tsize] at ht; omega
        · refine IH v ?_
          simp only [tsize] at ht; omega
      | Func p args ret =>
        simp only [tyEq, Bool.and_eq_true]
        refine ⟨⟨funcPropertiesEq_refl p, listRefl args fun t' ht' => IH t' ?_⟩, IH ret ?_⟩
        · have h1 := tsize_mem_le ht'
          simp only [tsize] at ht; omega
        · simp only [tsize] at ht; omega
      | Nominal p i => simp [tyEq]
      | Variable p i => simp [tyEq]
      | Void => simp [tyEq]
      | Uint => simp [tyEq]
      | Int => simp [tyEq]
      | Bool => simp [tyEq]
      | Bytes32 => simp [tyEq]
      | EthAddress => simp [tyEq]
      | Buffer => simp [tyEq]
      | Any => simp [tyEq]
      | Every => simp [tyEq]
  exact fun t => main (tsize t) t (le_refl _)

/-- Reflexivity of the custom slice equality on type lists. -/
lemma tyListEq_refl (ts : List Ty) : tyListEq ts ts = true := by
  induction ts with
  | nil => simp [tyListEq]
  | cons a r ih => simp [tyListEq, tyEq_refl, ih]

lemma type_vectors_assignable_go_self (rec : Ty → Ty → Option Bool) (ts : List Ty)
    (h : ∀ t ∈ ts, rec t t = some true) :
    type_vectors_assignable.go rec ts ts = some true := by
  induction ts with
  | nil => simp [type_vectors_assignable.go]
  | cons a r ih =>
    simp [type_vectors_assignable.go, h a (by simp), ih fun t ht => h t (by simp [ht])]

lemma type_vectors_assignable_self (rec : Ty → Ty → Option Bool) (ts : List Ty)
    (h : ∀ t ∈ ts, rec t t = some true) :
    type_vectors_assignable rec ts ts = some true := by
  simp [type_vectors_assignable, type_vectors_assignable_go_self rec ts h]

lemma field_vectors_assignable_go_self (rec : Ty → Ty → Option Bool)
    (fs : List (String × Ty)) (h : ∀ f ∈ fs, rec f.2 f.2 = some true) :
    field_vectors_assignable.go rec fs fs = some true := by
  induction fs with
  | nil => simp [field_vectors_assignable.go]
  | cons a r ih =>
    simp [field_vectors_assignable.go, h a (by simp), ih fun f hf => h f (by simp [hf])]

lemma field_vectors_assignable_self (rec : Ty → Ty → Option Bool)
    (fs : List (String × Ty)) (h : ∀ f ∈ fs, rec f.2 f.2 = some true) :
    field_vectors_assignable rec fs fs = some true := by
  simp [field_vectors_assignable, field_vectors_assignable_go_self rec fs h]

lemma mutual_arg_pairs_self (rec : Ty → Ty → Option Bool) (ts : List Ty)
    (h : ∀ t ∈ ts, rec t t = some true) :
    mutual_arg_pairs rec ts ts = some true := by
  induction ts with
  | nil => simp [mutual_arg_pairs]
  | cons a r ih =>
    simp [mutual_arg_pairs, h a (by simp), ih fun t ht => h t (by simp [ht])]

/-- **C1 (counterexample).**  The claim "`assignable(A, A)` returns true for
every type `A` and every type tree" fails: for `A = Nominal([], 0)` and the
empty type tree, `get_representation` fails to resolve the nominal and the
`Nominal` arm of `assignable` returns `false` (the result is `some false` at
every sufficient fuel, i.e. the call terminates with `false`, not `true`). -/
theorem assignable_not_reflexive_on_unresolved_nominal :
    assignable 5 [] (.Nominal [] 0) (.Nominal [] 0) [] = some false ∧
      assignable 5 [] (.Nominal [] 0) (.Nominal [] 0) [] ≠ some true :=
  ⟨rfl, by decide⟩

/-- **C1 (amended).**  Reflexivity of `assignable` holds for every type that
contains no type `Variable` (whose `assignable` arm is `unimplemented!`) and
no `Nominal` reference (which can fail to resolve, as in the counterexample):
for such `A`, any type tree, any seen set and any fuel at least the size of
`A`, `assignable(A, A)` terminates and returns `true`. -/
theorem assignable_refl_of_noVarNom :
    ∀ (n : Nat) (t : Ty) (tt : TypeTree) (seen : SeenSet),
      noVarNom t = true → tsize t ≤ n → assignable n tt t t seen = some true := by
  intro n
  induction n using Nat.strong_induction_on with
  | _ n IH =>
    intro t tt seen hv hs
    obtain ⟨m, rfl⟩ : ∃ m, n = m + 1 := ⟨n - 1, by have := tsize_pos t; omega⟩
    have hm : m < m + 1 := by omega
    cases t with
    | Void => simp [assignable, tyEq]
    | Uint => simp [assignable, tyEq]
    | Int => simp [assignable, tyEq]
    | Bool => simp [assignable, tyEq]
    | Bytes32 => simp [assignable, tyEq]
    | EthAddress => simp [assignable, tyEq]
    | Buffer => simp [assignable, tyEq]
    | Any => simp [assignable, tyEq]
    | Every => simp [assignable, tyEq]
    | Variable p i => simp [noVarNom] at hv
    | Nominal p i => simp [noVarNom] at hv
    | Tuple ts =>
      have hv' : noVarNomList ts = true := by simpa [noVarNom] using hv
      have hsz : tsizeList ts ≤ m := by simp only [tsize] at hs; omega
      simp only [assignable, tyEq, get_representation]
      exact type_vectors_assignable_self _ ts fun t' ht' =>
        IH m hm t' tt seen (noVarNomList_mem ht' hv')
          (le_trans (tsize_mem_le ht') hsz)
    | Union ts =>
      have hv' : noVarNomList ts = true := by simpa [noVarNom] using hv
      have hsz : tsizeList ts ≤ m := by simp only [tsize] at hs; omega
      simp only [assignable, tyEq, get_representation]
      exact type_vectors_assignable_self _ ts fun t' ht' =>
        IH m hm t' tt seen (noVarNomList_mem ht' hv')
          (le_trans (tsize_mem_le ht') hsz)
    | Array t' =>
      have hv' : noVarNom t' = true := by simpa [noVarNom] using hv
      have hsz : tsize t' ≤ m := by simp only [tsize] at hs; omega
      simp only [assignable, tyEq, get_representation]
      exact IH m hm t' tt seen hv' hsz
    | FixedArray t' s =>
      have hv' : noVarNom t' = true := by simpa [noVarNom] using hv
      have hsz : tsize t' ≤ m := by simp only [tsize] at hs; omega
      simp only [assignable, tyEq, get_representation]
      simp [IH m hm t' tt seen hv' hsz]
    | Option t' =>
      have hv' : noVarNom t' = true := by simpa [noVarNom] using hv
      have hsz : tsize t' ≤ m := by simp only [tsize] at hs; omega
      simp only [assignable, tyEq, get_representation]
      exact IH m hm t' tt seen hv' hsz
    | Struct fs =>
      have hv' : noVarNomFields fs = true := by simpa [noVarNom] using hv
      have hsz : tsizeFields fs ≤ m := by simp only [tsize] at hs; omega
      simp only [assignable, tyEq, get_representation]
      exact field_vectors_assignable_self _ fs fun f hf =>
        IH m hm f.2 tt seen (noVarNomFields_mem hf hv')
          (le_trans (tsize_field_mem_le hf) hsz)
    | Generic id args =>
      have hv' : noVarNomList args = true := by simpa [noVarNom] using hv
      have hsz : tsizeList args ≤ m := by simp only [tsize] at hs; omega
      simp only [assignable, tyEq]
      simp only [beq_self_eq_true, Bool.and_self, if_true, Bool.true_and]
      exact mutual_arg_pairs_self _ args fun t' ht' =>
        IH m hm t' tt seen (noVarNomList_mem ht' hv')
          (le_trans (tsize_mem_le ht') hsz)
    | Func p args ret =>
      have hva : noVarNomList args = true := by
        have := hv; simp only [noVarNom, Bool.and_eq_true] at this; exact this.1
      have hvr : noVarNom ret = true := by
        have := hv; simp only [noVarNom, Bool.and_eq_true] at this; exact this.2
      have hsa : tsizeList args ≤ m := by simp only [tsize] at hs; omega
      have hsr : tsize ret ≤ m := by simp only [tsize] at hs; omega
      have hargs : arg_vectors_assignable (fun a b => assignable m tt a b seen) args args =
          some true := by
        simp only [arg_vectors_assignable]
        exact type_vectors_assignable_self _ args fun t' ht' =>
          IH m hm t' tt seen (noVarNomList_mem ht' hva)
            (le_trans (tsize_mem_le ht') hsa)
      simp only [assignable, tyEq, FuncProperties.purity]
      simp [hargs, IH m hm ret tt seen hvr hsr]
    | Map k v =>
      have hvk : noVarNom k = true := by
        have := hv; simp only [noVarNom, Bool.and_eq_true] at this; exact this.1
      have hvv : noVarNom v = true := by
        have := hv; simp only [noVarNom, Bool.and_eq_true] at this; exact this.2
      have hsk : tsize k ≤ m := by simp only [tsize] at hs; omega
      have hsv : tsize v ≤ m := by simp only [tsize] at hs; omega
      simp only [assignable, tyEq]
      simp [get_representation_of_noVarNom hvv, IH m hm k tt seen hvk hsk,
        IH m hm v tt seen hvv hsv]

/-- Witness for `assignable_refl_of_noVarNom` at a concrete type. -/
theorem assignable_refl_of_noVarNom_witness :
    noVarNom (.Tuple [.Uint, .Option .Bool]) = true ∧
      tsize (.Tuple [.Uint, .Option .Bool]) ≤ 4 ∧
      assignable 4 [] (.Tuple [.Uint, .Option .Bool]) (.Tuple [.Uint, .Option .Bool]) [] =
        some true :=
  ⟨by decide, by decide,
    assignable_refl_of_noVarNom 4 (.Tuple [.Uint, .Option .Bool]) [] [] (by decide) (by decide)⟩

/-- **C3 (counterexample).**  The claim "`assignable(A, Every) = true` iff `A`
is not `Void`" fails at `A = Void`: the `rhs == Every` early return in
`assignable` fires before the left type is inspected, so
`assignable(Void, Every)` is `true` as well. -/
theorem assignable_every_into_void :
    assignable 1 [] .Void .Every [] = some true ∧
      ¬(assignable 1 [] .Void .Every [] = some true ↔ Ty.Void ≠ Ty.Void) :=
  ⟨rfl, fun hiff => (hiff.mp rfl) rfl⟩

/-- **C3 (amended).**  A value of type `Every` may be assigned into a location
of *any* type, `Void` included: for every left type `A`, type tree and seen
set, `assignable(A, Every)` returns `true` (at any non-zero fuel, i.e. the
call terminates immediately through the early return). -/
theorem assignable_every_rhs (n : Nat) (A : Ty) (tt : TypeTree) (seen : SeenSet) :
    assignable (n + 1) tt A .Every seen = some true := by
  simp [assignable, tyEq]

/-- **C7.**  With the type tree mapping `N ↦ Tuple([Nominal(N)])` (here
`N = ([], 7)`), `assignable(Nominal(N), Nominal(N))` terminates and returns
`true`: the first recursive visit inserts the pair of representations into
the seen set and the second visit hits it and stops.  In the fuel model a
`some true` result is exactly a terminating run of the Rust recursion (fuel
`10` bounds its depth; the run uses depth `3`). -/
theorem assignable_terminates_on_recursive_nominal :
    assignable 10 [(([], 7), .Tuple [.Nominal [] 7])] (.Nominal [] 7) (.Nominal [] 7) [] =
      some true := rfl

/-- **C10.**  Equality of `FuncProperties` is purity-only: `p1 == p2` holds
iff the `(view, write)` pairs agree, so the `closure` and `public` flags are
ignored, and two `Func` types with the same argument and return types whose
properties share a purity pair are equal under the custom `PartialEq` on
types. -/
theorem funcProperties_eq_iff_purity :
    (∀ p1 p2 : FuncProperties,
        funcPropertiesEq p1 p2 = true ↔ (p1.view, p1.write) = (p2.view, p2.write)) ∧
    (∀ (p1 p2 : FuncProperties) (args : List Ty) (ret : Ty),
        (p1.view, p1.write) = (p2.view, p2.write) →
          tyEq (.Func p1 args ret) (.Func p2 args ret) = true) := by
  constructor
  · intro p1 p2
    simp [funcPropertiesEq, FuncProperties.purity]
  · intro p1 p2 args ret h
    simp only [Prod.mk.injEq] at h
    simp [tyEq, funcPropertiesEq, FuncProperties.purity, h.1, h.2, tyListEq_refl, tyEq_refl]

/-- Witness for `funcProperties_eq_iff_purity`: two function types that differ
only in the `closure` and `public` flags compare equal. -/
theorem funcProperties_eq_iff_purity_witness :
    tyEq (.Func ⟨false, false, true, false⟩ [.Uint] .Void)
      (.Func ⟨false, false, false, true⟩ [.Uint] .Void) = true :=
  funcProperties_eq_iff_purity.2 ⟨false, false, true, false⟩ ⟨false, false, false, true⟩
    [.Uint] .Void rfl

/-- **C5 (counterexample).**  The claim "`ReturnVoid` checks iff the return
type is `Void` or `Any`" fails in both directions: with return type `Any` the
statement is rejected (`Void.assignable(Any)` is `false`, since the `Any`
short-circuit sits on the *left* side of `assignable` and `Any` is only
accepted on the left), while with return type `Every` it is accepted (the
`rhs == Every` early return). -/
theorem return_void_any_rejected_every_accepted :
    typecheck_statement_return_void 2 .Any [] = some (.error ()) ∧
      typecheck_statement_return_void 2 .Any [] ≠ some (.ok ()) ∧
      typecheck_statement_return_void 2 .Every [] = some (.ok ()) :=
  ⟨rfl, fun h => Except.noConfusion (Option.some.inj h), rfl⟩

/-- **C5 (amended).**  Type checking a `ReturnVoid` statement succeeds exactly
when the enclosing function's declared return type is `Void` or `Every`, and
produces a type error for every other return type. -/
theorem return_void_checks_iff_void_or_every (rt : Ty) (tt : TypeTree) (n : Nat) :
    typecheck_statement_return_void (n + 1) rt tt = some (.ok ()) ↔
      (rt = .Void ∨ rt = .Every) := by
  cases rt <;> simp [typecheck_statement_return_void, assignable, tyEq]

/-- Witness for `return_void_checks_iff_void_or_every` at return type `Void`. -/
theorem return_void_checks_iff_void_or_every_witness :
    typecheck_statement_return_void 1 .Void [] = some (.ok ()) :=
  (return_void_checks_iff_void_or_every .Void [] 0).mpr (Or.inl rfl)

/-- **C6 (counterexample).**  The claim requires `assignable(K, type(k))`
(store the key into the map's declared key type), but the code checks
`assignable(type(k), K)` — the reversed direction.  Concretely, deleting a key
of type `Any` from a `Map(Uint, Uint)` succeeds although
`assignable(Uint, Any)` is `false`. -/
theorem map_delete_reversed_assignability :
    typecheck_expr_map_delete 2 [] (.Opaque 0 (.Map .Uint .Uint)) (.Opaque 1 .Any) =
        some (.ok (.MapDelete (.Opaque 0 (.Map .Uint .Uint)) (.Opaque 1 .Any)
          (.Map .Uint .Uint))) ∧
      assignable 2 [] .Uint .Any [] = some false ∧
      assignable 2 [] .Uint .Any [] ≠ some true :=
  ⟨rfl, rfl, by decide⟩

/-- **C6 (amended).**  Type checking `MapDelete(m, k)` succeeds exactly when
the type of `m` is literally `Map(K, V)` and `assignable(type(k), K)` holds —
the key expression's type must *accept* the map's declared key type (the
reverse of the claimed direction); in every other case it produces a type
error. -/
theorem map_delete_checks_iff (m k : TCExpr) (tt : TypeTree) (n : Nat) :
    (∃ r, typecheck_expr_map_delete n tt m k = some (.ok r)) ↔
      (∃ K V, TCExpr.get_type m = .Map K V ∧
        assignable n tt (TCExpr.get_type k) K [] = some true) := by
  cases hmt : TCExpr.get_type m with
  | Map K0 V0 =>
    cases han : assignable n tt (TCExpr.get_type k) K0 [] with
    | none => simp [typecheck_expr_map_delete, hmt, han]
    | some b => cases b <;> simp [typecheck_expr_map_delete, hmt, han]
  | Void => simp [typecheck_expr_map_delete, hmt]
  | Uint => simp [typecheck_expr_map_delete, hmt]
  | Int => simp [typecheck_expr_map_delete, hmt]
  | Bool => simp [typecheck_expr_map_delete, hmt]
  | Bytes32 => simp [typecheck_expr_map_delete, hmt]
  | EthAddress => simp [typecheck_expr_map_delete, hmt]
  | Buffer => simp [typecheck_expr_map_delete, hmt]
  | Tuple ts => simp [typecheck_expr_map_delete, hmt]
  | Array t => simp [typecheck_expr_map_delete, hmt]
  | FixedArray t s => simp [typecheck_expr_map_delete, hmt]
  | Struct fs => simp [typecheck_expr_map_delete, hmt]
  | Variable p i => simp [typecheck_expr_map_delete, hmt]
  | Nominal p i => simp [typecheck_expr_map_delete, hmt]
  | Generic id args => simp [typecheck_expr_map_delete, hmt]
  | Func p args ret => simp [typecheck_expr_map_delete, hmt]
  | Any => simp [typecheck_expr_map_delete, hmt]
  | Every => simp [typecheck_expr_map_delete, hmt]
  | Option t => simp [typecheck_expr_map_delete, hmt]
  | Union ts => simp [typecheck_expr_map_delete, hmt]

/-- Witness for `map_delete_checks_iff`: a well-typed delete of a `Uint` key
from a `Map(Uint, Uint)`. -/
theorem map_delete_checks_iff_witness :
    ∃ r, typecheck_expr_map_delete 2 [] (.Opaque 0 (.Map .Uint .Uint)) (.Opaque 1 .Uint) =
      some (.ok r) :=
  (map_delete_checks_iff (.Opaque 0 (.Map .Uint .Uint)) (.Opaque 1 .Uint) [] 2).mpr
    ⟨.Uint, .Uint, rfl, rfl⟩

lemma iter_position_finds {α : Type} (p : α → Bool) :
    ∀ l : List α, (∃ v ∈ l, p v = true) →
      ∃ i v, iter_position p l = some i ∧ l[i]? = some v ∧ p v = true := by
  intro l
  induction l with
  | nil => rintro ⟨v, hv, _⟩; cases hv
  | cons a rest ih =>
    rintro ⟨v, hv, hp⟩
    by_cases ha : p a = true
    · exact ⟨0, a, by simp [iter_position, ha], by simp, ha⟩
    · have hv' : v ∈ rest := by
        rcases List.mem_cons.mp hv with rfl | h
        · exact absurd hp ha
        · exact h
      obtain ⟨i, w, h1, h2, h3⟩ := ih ⟨v, hv', hp⟩
      exact ⟨i + 1, w, by simp [iter_position, ha, h1], by simpa using h2, h3⟩

lemma vec_swap_head {α : Type} (l : List α) (i : Nat) (w : α) (hi : l[i]? = some w) :
    (vec_swap l 0 i)[0]? = some w := by
  cases l with
  | nil => simp at hi
  | cons a rest =>
    by_cases hi0 : i = 0
    · subst hi0
      simp only [List.getElem?_cons_zero, Option.some.injEq] at hi
      subst hi
      simp [vec_swap]
    · have hlen : i < (a :: rest).length := by
        by_contra hge
        rw [List.getElem?_eq_none (by omega)] at hi
        cases hi
      simp only [vec_swap, List.get?_eq_getElem?, List.getElem?_cons_zero, hi]
      rw [List.getElem?_set_ne (by omega : i ≠ 0)]
      exact List.getElem?_set_eq_of_lt _ (by simp)

lemma global_vars_map_head (l : List GlobalVarDecl) (v : GlobalVarDecl)
    (h : l[0]? = some v) : (v.name_id, (v.tipe, 0)) ∈ global_vars_map l := by
  cases l with
  | nil => simp at h
  | cons a rest =>
    simp only [List.getElem?_cons_zero, Option.some.injEq] at h
    subst h
    simp [global_vars_map, List.enum_cons]

/-- **C9.**  If the global-variable declaration list contains a declaration
named exactly `__fixedLocationGlobal`, then after the reordering performed by
`typecheck_top_level_decls` that declaration sits at position zero, and the
slot numbering derived from it (used by all `GlobalVariableRef` /
`AssignGlobal` nodes) assigns it slot `0`. -/
theorem fixed_location_global_gets_slot_zero (gvs : List GlobalVarDecl)
    (h : ∃ v ∈ gvs, v.name = "__fixedLocationGlobal") :
    ∃ v, (order_global_vars gvs)[0]? = some v ∧ v.name = "__fixedLocationGlobal" ∧
      (v.name_id, (v.tipe, 0)) ∈ global_vars_map (order_global_vars gvs) := by
  obtain ⟨i, w, hpos, hget, hname⟩ :=
    iter_position_finds (fun var => var.name == "__fixedLocationGlobal") gvs
      (by obtain ⟨v, hv, hn⟩ := h; exact ⟨v, hv, by simp [hn]⟩)
  have horder : order_global_vars gvs = vec_swap gvs 0 i := by
    simp [order_global_vars, hpos]
  have hhead : (order_global_vars gvs)[0]? = some w := by
    rw [horder]; exact vec_swap_head gvs i w hget
  exact ⟨w, hhead, by simpa using hname, global_vars_map_head _ w hhead⟩

/-- Witness for `fixed_location_global_gets_slot_zero` on a two-element list
with the reserved global in second position. -/
theorem fixed_location_global_gets_slot_zero_witness :
    ∃ v : GlobalVarDecl,
      (order_global_vars [⟨"a", 1, .Uint⟩, ⟨"__fixedLocationGlobal", 2, .Int⟩])[0]? = some v ∧
        v.name = "__fixedLocationGlobal" ∧
        (v.name_id, (v.tipe, 0)) ∈
          global_vars_map (order_global_vars
            [⟨"a", 1, .Uint⟩, ⟨"__fixedLocationGlobal", 2, .Int⟩]) :=
  fixed_location_global_gets_slot_zero _
    ⟨⟨"__fixedLocationGlobal", 2, .Int⟩, by simp, rfl⟩

lemma typecheck_binary_op_resolved_shape (op : BinaryOp) (e1 e2 : TCExpr) (s1 s2 : Ty)
    (op' : BinaryOp) (l r : TCExpr) (ty : Ty)
    (h : typecheck_binary_op_resolved op e1 e2 s1 s2 = some (.ok (.Binary op' l r ty))) :
    l = e1 ∧ r = e2 ∧ (op' = op ∨ op' = signed_variant op) := by
  cases op <;> simp only [typecheck_binary_op_resolved] at h <;>
    (try split at h) <;> simp_all [signed_variant]

lemma typecheck_binary_op_dispatch_shape (fuel : Nat) (tt : TypeTree) (op : BinaryOp)
    (e1 e2 : TCExpr) (op' : BinaryOp) (l r : TCExpr) (ty : Ty)
    (h : typecheck_binary_op_dispatch fuel tt op e1 e2 = some (.ok (.Binary op' l r ty))) :
    l = e1 ∧ r = e2 ∧ (op' = op ∨ op' = signed_variant op) := by
  unfold typecheck_binary_op_dispatch at h
  split at h
  · exact absurd h (by simp)
  · exact absurd h (by simp)
  · split at h
    · exact absurd h (by simp)
    · exact absurd h (by simp)
    · exact typecheck_binary_op_resolved_shape _ _ _ _ _ _ _ _ _ h

/-- **C4 (counterexample).**  The claim says a lone integer literal operand of
a commutative operator ends up on the *right* of the emitted `Binary` node,
but the swap in `typecheck_binary_op` moves a right-hand constant to the
*left* (and leaves an already-left constant alone): `x + 3` is emitted as
`Binary(Plus, Const 3, x)`, with the literal on the left. -/
theorem binary_op_literal_lands_left :
    typecheck_binary_op avm_hash2_any 1 .Plus (.Opaque 0 .Uint) (.Const 3 .Uint) [] =
        some (.ok (.Binary .Plus (.Const 3 .Uint) (.Opaque 0 .Uint) .Uint)) ∧
      (TCExpr.Const 3 .Uint : TCExpr) ≠ .Opaque 0 .Uint :=
  ⟨rfl, by simp⟩

/-- **C4 (amended).**  Whenever one of the commutative operators `+`, `*`,
`==`, `!=`, `&`, `|`, `^` is applied to exactly one integer-literal operand
and one non-constant operand and a `Binary` node is emitted, the literal
operand appears on the **left** of that node and the operator is unchanged;
for the comparison operators `<`, `>`, `<=`, `>=` the literal likewise lands
on the left, with the operator flipped (up to its signed specialization) when
the literal started on the right and kept (up to its signed specialization)
when it started on the left. -/
theorem binary_op_literal_placement (op : BinaryOp) (v : Nat) (t targ : Ty) (id : Nat)
    (tt : TypeTree) (h2 : Nat → Nat → Nat) (fuel : Nat) (op' : BinaryOp) (l r : TCExpr)
    (ty : Ty) :
    (op ∈ commutative_swap_ops →
      (typecheck_binary_op h2 fuel op (.Opaque id targ) (.Const v t) tt =
          some (.ok (.Binary op' l r ty)) →
        op' = op ∧ l = .Const v t ∧ r = .Opaque id targ) ∧
      (typecheck_binary_op h2 fuel op (.Const v t) (.Opaque id targ) tt =
          some (.ok (.Binary op' l r ty)) →
        op' = op ∧ l = .Const v t ∧ r = .Opaque id targ)) ∧
    (op ∈ comparison_swap_ops →
      (typecheck_binary_op h2 fuel op (.Opaque id targ) (.Const v t) tt =
          some (.ok (.Binary op' l r ty)) →
        (op' = comparison_flip op ∨ op' = signed_variant (comparison_flip op)) ∧
          l = .Const v t ∧ r = .Opaque id targ) ∧
      (typecheck_binary_op h2 fuel op (.Const v t) (.Opaque id targ) tt =
          some (.ok (.Binary op' l r ty)) →
        (op' = op ∨ op' = signed_variant op) ∧ l = .Const v t ∧ r = .Opaque id targ)) := by
  constructor
  · intro hop
    simp only [commutative_swap_ops, List.mem_cons, List.not_mem_nil, or_false] at hop
    constructor
    · intro h
      rcases hop with rfl | rfl | rfl | rfl | rfl | rfl | rfl <;>
        · simp only [typecheck_binary_op] at h
          obtain ⟨h1, h2', h3⟩ := typecheck_binary_op_dispatch_shape _ _ _ _ _ _ _ _ _ h
          simp only [signed_variant, or_self] at h3
          exact ⟨h3, h1, h2'⟩
    · intro h
      rcases hop with rfl | rfl | rfl | rfl | rfl | rfl | rfl <;>
        · simp only [typecheck_binary_op] at h
          obtain ⟨h1, h2', h3⟩ := typecheck_binary_op_dispatch_shape _ _ _ _ _ _ _ _ _ h
          simp only [signed_variant, or_self] at h3
          exact ⟨h3, h1, h2'⟩
  · intro hop
    simp only [comparison_swap_ops, List.mem_cons, List.not_mem_nil, or_false] at hop
    constructor
    · intro h
      rcases hop with rfl | rfl | rfl | rfl <;>
        · simp only [typecheck_binary_op] at h
          obtain ⟨h1, h2', h3⟩ := typecheck_binary_op_dispatch_shape _ _ _ _ _ _ _ _ _ h
          exact ⟨by simpa [comparison_flip, signed_variant] using h3, h1, h2'⟩
    · intro h
      rcases hop with rfl | rfl | rfl | rfl <;>
        · simp only [typecheck_binary_op] at h
          obtain ⟨h1, h2', h3⟩ := typecheck_binary_op_dispatch_shape _ _ _ _ _ _ _ _ _ h
          exact ⟨h3, h1, h2'⟩

/-- Witness for `binary_op_literal_placement`: `x + 3` on `Uint` operands. -/
theorem binary_op_literal_placement_witness :
    BinaryOp.Plus = BinaryOp.Plus ∧ (TCExpr.Const 3 .Uint : TCExpr) = .Const 3 .Uint ∧
      (TCExpr.Opaque 0 .Uint : TCExpr) = .Opaque 0 .Uint :=
  ((binary_op_literal_placement .Plus 3 .Uint .Uint 0 [] avm_hash2_any 1 .Plus
      (.Const 3 .Uint) (.Opaque 0 .Uint) .Uint).1 (by decide)).1 rfl

lemma decide_le_eq_not_decide_lt (x y : Int) : decide (x ≤ y) = !decide (y < x) := by
  by_cases h : y < x
  · simp [h, not_le.mpr h]
  · simp [h, not_lt.mp h]

/-- **C8 (counterexample).**  Folding `ShiftLeft` on two `Int` literals
produces a type error even though neither a subtraction underflow nor a
division by zero is involved — the constant folder requires the left shift
operand to be `Uint` — while the non-constant path accepts `(Int, Int)`
shifts, so the claimed "errors exactly on underflow or division by zero"
fails at `(1 : Int) << (1 : Int)`. -/
theorem shift_on_int_literals_errors :
    typecheck_binary_op avm_hash2_any 1 .ShiftLeft (.Const 1 .Int) (.Const 1 .Int) [] =
        some (.error ()) ∧
      typecheck_binary_op_resolved .ShiftLeft (.Const 1 .Int) (.Const 1 .Int) .Int .Int =
        some (.ok (.Binary .ShiftLeft (.Const 1 .Int) (.Const 1 .Int) .Int)) ∧
      ¬(1 < 1) ∧ (1 : Nat) ≠ 0 :=
  ⟨rfl, rfl, by decide, by decide⟩

/-- **C8 (amended).**  For integer literals `a`, `b` of the same integer type
`T ∈ {Uint, Int}` and any of the foldable operators `+`, `-`, `*`, `/`, `%`,
`<`, `>`, `<=`, `>=`, `==`, `!=`, `&`, `|`, `^` (the shifts excluded, per the
counterexample), type checking `a op b` yields a `Const` node whose value is
the host 256-bit result of `op` (`spec_constant_fold`), and the fold reports
a type error exactly when the operation is a subtraction that underflows or a
division/modulus by constant zero. -/
theorem constant_fold_matches_host (op : BinaryOp) (T : Ty) (a b : Nat)
    (h2 : Nat → Nat → Nat) (fuel : Nat) (tt : TypeTree)
    (hop : op ∈ constant_foldable_ops) (hT : T = .Uint ∨ T = .Int) :
    typecheck_binary_op h2 fuel op (.Const a T) (.Const b T) tt =
      (match spec_constant_fold op T a b with
        | none => some (.error ())
        | some v => some (.ok (.Const v (const_fold_result_type op T)))) ∧
    (spec_constant_fold op T a b = none ↔
      (op = .Minus ∧ a < b) ∨ ((op = .Div ∨ op = .Mod) ∧ b = 0)) := by
  rcases hT with rfl | rfl <;>
    simp only [constant_foldable_ops, List.mem_cons, List.not_mem_nil, or_false] at hop <;>
    rcases hop with rfl|rfl|rfl|rfl|rfl|rfl|rfl|rfl|rfl|rfl|rfl|rfl|rfl|rfl <;>
    refine ⟨?_, ?_⟩ <;>
    simp only [spec_constant_fold, const_fold_result_type, typecheck_binary_op,
      typecheck_binary_op_const, u256_sub, u256_div, u256_modulo, u256_sdiv,
      u256_smodulo, tyEq] <;>
    first
      | rfl
      | (split_ifs <;> simp_all)
      | (simp [u256_s_less_than, u256_from_bool, decide_le_eq_not_decide_lt])

/-- Witness for `constant_fold_matches_host`: `5 - 3` on `Uint` literals folds
to the constant `2`. -/
theorem constant_fold_matches_host_witness :
    typecheck_binary_op avm_hash2_any 1 .Minus (.Const 5 .Uint) (.Const 3 .Uint) [] =
      (match spec_constant_fold .Minus .Uint 5 3 with
        | none => some (.error ())
        | some v => some (.ok (.Const v (const_fold_result_type .Minus .Uint)))) ∧
    (spec_constant_fold .Minus .Uint 5 3 = none ↔
      (BinaryOp.Minus = .Minus ∧ 5 < 3) ∨
        ((BinaryOp.Minus = .Div ∨ BinaryOp.Minus = .Mod) ∧ 3 = 0)) :=
  constant_fold_matches_host .Minus .Uint 5 3 avm_hash2_any 1 [] (by decide) (Or.inl rfl)

lemma go_zip_total (recA : Ty → Ty → Option Bool) (recM : Ty → Ty → MismatchResult)
    (wrap : Nat → TypeMismatch → TypeMismatch) :
    ∀ (ts ts2 : List Ty) (k : Nat), PairAgree recA recM ts ts2 →
      ∃ bo r, type_vectors_assignable.go recA ts ts2 = some bo ∧
        zip_index_mismatch recM wrap k ts ts2 = some r ∧ (r = none ↔ bo = true) := by
  intro ts
  induction ts with
  | nil =>
    intro ts2 k _
    exact ⟨true, none, rfl, rfl, by simp⟩
  | cons a as ih =>
    intro ts2 k hz
    cases ts2 with
    | nil => exact ⟨true, none, rfl, rfl, by simp⟩
    | cons b bs =>
      obtain ⟨bb, rm, h1, h2, h3⟩ := hz a b (by simp [List.zip_cons_cons])
      cases bb with
      | false =>
        rcases rm with _ | m
        · simp at h3
        · exact ⟨false, some (wrap k m),
            by simp [type_vectors_assignable.go, h1],
            by simp [zip_index_mismatch, h2], by simp⟩
      | true =>
        have hrm : rm = none := h3.mpr rfl
        subst hrm
        obtain ⟨bo, r, g1, g2, g3⟩ := ih bs (k + 1) fun x y hxy =>
          hz x y (by simp [List.zip_cons_cons, hxy])
        exact ⟨bo, r, by simp [type_vectors_assignable.go, h1, g1],
          by simp [zip_index_mismatch, h2, g2], g3⟩

lemma field_go_zip_total (recA : Ty → Ty → Option Bool) (recM : Ty → Ty → MismatchResult) :
    ∀ (fs fs2 : List (String × Ty)),
      (∀ f g, (f, g) ∈ fs.zip fs2 →
        ∃ bb rm, recA f.2 g.2 = some bb ∧ recM f.2 g.2 = some rm ∧ (rm = none ↔ bb = true)) →
      ∃ bo r, field_vectors_assignable.go recA fs fs2 = some bo ∧
        field_vectors_mismatch.go recM fs fs2 = some r ∧ (r = none ↔ bo = true) := by
  intro fs
  induction fs with
  | nil =>
    intro fs2 _
    cases fs2 with
    | nil => exact ⟨true, none, rfl, rfl, by simp⟩
    | cons g gs => exact ⟨true, none, rfl, rfl, by simp⟩
  | cons f fsrest ih =>
    intro fs2 hz
    cases fs2 with
    | nil => exact ⟨true, none, rfl, rfl, by simp⟩
    | cons g gs =>
      obtain ⟨bb, rm, h1, h2, h3⟩ := hz f g (by simp [List.zip_cons_cons])
      cases bb with
      | false =>
        rcases rm with _ | m
        · simp at h3
        · exact ⟨false, some (.FieldType f.1 m),
            by simp [field_vectors_assignable.go, h1],
            by simp [field_vectors_mismatch.go, h2], by simp⟩
      | true =>
        have hrm : rm = none := h3.mpr rfl
        subst hrm
        by_cases hname : (f.1 == g.1) = true
        · obtain ⟨bo, r, g1, g2, g3⟩ := ih gs fun x y hxy =>
            hz x y (by simp [List.zip_cons_cons, hxy])
          exact ⟨bo, r, by simp [field_vectors_assignable.go, h1, hname, g1],
            by simp [field_vectors_mismatch.go, h2, hname, g2], g3⟩
        · replace hname : (f.1 == g.1) = false := by simpa using hname
          exact ⟨false, some (.FieldName f.1 g.1),
            by simp [field_vectors_assignable.go, h1, hname],
            by simp [field_vectors_mismatch.go, h2, hname], by simp⟩

lemma vectors_assignable_mismatch_total (recA : Ty → Ty → Option Bool)
    (recM : Ty → Ty → MismatchResult) (wrap : Nat → TypeMismatch → TypeMismatch)
    (lenMM : Nat → Nat → TypeMismatch) (ts ts2 : List Ty)
    (hz : PairAgree recA recM ts ts2) :
    ∃ b rm, type_vectors_assignable recA ts ts2 = some b ∧
      (match zip_index_mismatch recM wrap 0 ts ts2 with
        | none => none
        | some (some m) => some (some m)
        | some none =>
          if ts.length != ts2.length then some (some (lenMM ts.length ts2.length))
          else some none) = some rm ∧
      (rm = none ↔ b = true) := by
  obtain ⟨bo, r, hgo, hzip, hiff⟩ := go_zip_total recA recM wrap ts ts2 0 hz
  by_cases hlen : ts.length = ts2.length
  · rcases r with _ | m
    · exact ⟨bo, none, by simp [type_vectors_assignable, hlen, hgo],
        by simp [hzip, hlen], hiff⟩
    · exact ⟨bo, some m, by simp [type_vectors_assignable, hlen, hgo],
        by simp [hzip], hiff⟩
  · rcases r with _ | m
    · exact ⟨false, some (lenMM ts.length ts2.length),
        by simp [type_vectors_assignable, hlen],
        by simp [hzip, hlen], by simp⟩
    · refine ⟨false, some m, by simp [type_vectors_assignable, hlen],
        by simp [hzip], by simp⟩

lemma fields_assignable_mismatch_total (recA : Ty → Ty → Option Bool)
    (recM : Ty → Ty → MismatchResult) (fs fs2 : List (String × Ty))
    (hz : ∀ f g, (f, g) ∈ fs.zip fs2 →
      ∃ bb rm, recA f.2 g.2 = some bb ∧ recM f.2 g.2 = some rm ∧ (rm = none ↔ bb = true)) :
    ∃ b rm, field_vectors_assignable recA fs fs2 = some b ∧
      field_vectors_mismatch recM fs fs2 = some rm ∧ (rm = none ↔ b = true) := by
  obtain ⟨bo, r, hgo, hmm, hiff⟩ := field_go_zip_total recA recM fs fs2 hz
  by_cases hlen : fs.length = fs2.length
  · rcases r with _ | m
    · exact ⟨bo, none, by simp [field_vectors_assignable, hlen, hgo],
        by simp [field_vectors_mismatch, hmm, hlen], hiff⟩
    · exact ⟨bo, some m, by simp [field_vectors_assignable, hlen, hgo],
        by simp [field_vectors_mismatch, hmm], hiff⟩
  · rcases r with _ | m
    · exact ⟨false, some (.Length fs.length fs2.length),
        by simp [field_vectors_assignable, hlen],
        by simp [field_vectors_mismatch, hmm, hlen], by simp⟩
    · exact ⟨false, some m, by simp [field_vectors_assignable, hlen],
        by simp [field_vectors_mismatch, hmm], by simp⟩

/-- Element-level agreement of `assignable` and `first_mismatch` on the
structural fragment (no `Variable`, `Nominal`, `Generic` or `Func` anywhere in
either type): both terminate, and `first_mismatch` returns `None` exactly when
`assignable` returns `true`. -/
lemma assignable_mismatch_agree :
    ∀ (n : Nat) (A B : Ty) (tt : TypeTree) (seen : SeenSet),
      structuralTy A = true → structuralTy B = true → tsize A ≤ n →
      ∃ b rm, assignable n tt A B seen = some b ∧
        first_mismatch n tt A B seen = some rm ∧ (rm = none ↔ b = true) := by
  intro n
  induction n using Nat.strong_induction_on with
  | _ n IH =>
    intro A B tt seen hA hB hs
    obtain ⟨m, rfl⟩ : ∃ m, n = m + 1 := ⟨n - 1, by have := tsize_pos A; omega⟩
    have hm : m < m + 1 := by omega
    by_cases hBE : tyEq B .Every = true
    · exact ⟨true, none, by simp [assignable, hBE], by simp [first_mismatch, hBE], by simp⟩
    · replace hBE : tyEq B .Every = false := by simpa using hBE
      cases A with
      | Variable p i => simp [structuralTy] at hA
      | Nominal p i => simp [structuralTy] at hA
      | Generic id args => simp [structuralTy] at hA
      | Func p args ret => simp [structuralTy] at hA
      | Any =>
        cases hv : tyEq B .Void
        · exact ⟨true, none, by simp [assignable, hBE, hv],
            by simp [first_mismatch, hBE, hv], by simp⟩
        · exact ⟨false, some (.Type .Any .Void), by simp [assignable, hBE, hv],
            by simp [first_mismatch, hBE, hv], by simp⟩
      | Void =>
        cases hab : tyEq .Void B
        · exact ⟨false, some (.Type .Void B), by simp [assignable, hBE, hab],
            by simp [first_mismatch, hBE, hab], by simp⟩
        · exact ⟨true, none, by simp [assignable, hBE, hab],
            by simp [first_mismatch, hBE, hab], by simp⟩
      | Uint =>
        cases hab : tyEq .Uint B
        · exact ⟨false, some (.Type .Uint B), by simp [assignable, hBE, hab],
            by simp [first_mismatch, hBE, hab], by simp⟩
        · exact ⟨true, none, by simp [assignable, hBE, hab],
            by simp [first_mismatch, hBE, hab], by simp⟩
      | Int =>
        cases hab : tyEq .Int B
        · exact ⟨false, some (.Type .Int B), by simp [assignable, hBE, hab],
            by simp [first_mismatch, hBE, hab], by simp⟩
        · exact ⟨true, none, by simp [assignable, hBE, hab],
            by simp [first_mismatch, hBE, hab], by simp⟩
      | Bool =>
        cases hab : tyEq .Bool B
        · exact ⟨false, some (.Type .Bool B), by simp [assignable, hBE, hab],
            by simp [first_mismatch, hBE, hab], by simp⟩
        · exact ⟨true, none, by simp [assignable, hBE, hab],
            by simp [first_mismatch, hBE, hab], by simp⟩
      | Bytes32 =>
        cases hab : tyEq .Bytes32 B
        · exact ⟨false, some (.Type .Bytes32 B), by simp [assignable, hBE, hab],
            by simp [first_mismatch, hBE, hab], by simp⟩
        · exact ⟨true, none, by simp [assignable, hBE, hab],
            by simp [first_mismatch, hBE, hab], by simp⟩
      | EthAddress =>
        cases hab : tyEq .EthAddress B
        · exact ⟨false, some (.Type .EthAddress B), by simp [assignable, hBE, hab],
            by simp [first_mismatch, hBE, hab], by simp⟩
        · exact ⟨true, none, by simp [assignable, hBE, hab],
            by simp [first_mismatch, hBE, hab], by simp⟩
      | Buffer =>
        cases hab : tyEq .Buffer B
        · exact ⟨false, some (.Type .Buffer B), by simp [assignable, hBE, hab],
            by simp [first_mismatch, hBE, hab], by simp⟩
        · exact ⟨true, none, by simp [assignable, hBE, hab],
            by simp [first_mismatch, hBE, hab], by simp⟩
      | Every =>
        cases hab : tyEq .Every B
        · exact ⟨false, some (.Type .Every B), by simp [assignable, hBE, hab],
            by simp [first_mismatch, hBE, hab], by simp⟩
        · exact ⟨true, none, by simp [assignable, hBE, hab],
            by simp [first_mismatch, hBE, hab], by simp⟩
      | Tuple ts =>
        have hA2 : structuralList ts = true := by simpa [structuralTy] using hA
        have hsz : tsizeList ts ≤ m := by simp only [tsize] at hs; omega
        cases B with
        | Tuple ts2 =>
          have hB2 : structuralList ts2 = true := by simpa [structuralTy] using hB
          have hz : PairAgree (fun a b => assignable m tt a b seen)
              (fun a b => first_mismatch m tt a b seen) ts ts2 := by
            intro a b hab
            have hmem := List.of_mem_zip hab
            exact IH m hm a b tt seen (structuralList_mem hmem.1 hA2)
              (structuralList_mem hmem.2 hB2) (le_trans (tsize_mem_le hmem.1) hsz)
          obtain ⟨b, rm, h1, h2, h3⟩ := vectors_assignable_mismatch_total _ _
            TypeMismatch.Tuple TypeMismatch.TupleLength ts ts2 hz
          refine ⟨b, rm, ?_, ?_, h3⟩
          · simpa [assignable, hBE, get_representation] using h1
          · simpa [first_mismatch, hBE, get_representation] using h2
        | Void =>
          exact ⟨false, some (.Type (.Tuple ts) .Void),
            by simp [assignable, hBE, get_representation],
            by simp [first_mismatch, hBE, get_representation], by simp⟩
        | Uint =>
          exact ⟨false, some (.Type (.Tuple ts) .Uint),
            by simp [assignable, hBE, get_representation],
            by simp [first_mismatch, hBE, get_representation], by simp⟩
        | Int =>
          exact ⟨false, some (.Type (.Tuple ts) .Int),
            by simp [assignable, hBE, get_representation],
            by simp [first_mismatch, hBE, get_representation], by simp⟩
        | Bool =>
          exact ⟨false, some (.Type (.Tuple ts) .Bool),
            by simp [assignable, hBE, get_representation],
            by simp [first_mismatch, hBE, get_representation], by simp⟩
        | Bytes32 =>
          exact ⟨false, some (.Type (.Tuple ts) .Bytes32),
            by simp [assignable, hBE, get_representation],
            by simp [first_mismatch, hBE, get_representation], by simp⟩
        | EthAddress =>
          exact ⟨false, some (.Type (.Tuple ts) .EthAddress),
            by simp [assignable, hBE, get_representation],
            by simp [first_mismatch, hBE, get_representation], by simp⟩
        | Buffer =>
          exact ⟨false, some (.Type (.Tuple ts) .Buffer),
            by simp [assignable, hBE, get_representation],
            by simp [first_mismatch, hBE, get_representation], by simp⟩
        | Array t2 =>
          exact ⟨false, some (.Type (.Tuple ts) (.Array t2)),
            by simp [assignable, hBE, get_representation],
            by simp [first_mismatch, hBE, get_representation], by simp⟩
        | FixedArray t2 s2 =>
          exact ⟨false, some (.Type (.Tuple ts) (.FixedArray t2 s2)),
            by simp [assignable, hBE, get_representation],
            by simp [first_mismatch, hBE, get_representation], by simp⟩
        | Struct fs2 =>
          exact ⟨false, some (.Type (.Tuple ts) (.Struct fs2)),
            by simp [assignable, hBE, get_representation],
            by simp [first_mismatch, hBE, get_representation], by simp⟩
        | Variable p2 i2 => simp [structuralTy] at hB
        | Nominal p2 i2 => simp [structuralTy] at hB
        | Generic id2 args2 => simp [structuralTy] at hB
        | Func pr2 args2 ret2 => simp [structuralTy] at hB
        | Map k2 v2 =>
          exact ⟨false, some (.Type (.Tuple ts) (.Map k2 v2)),
            by simp [assignable, hBE, get_representation],
            by simp [first_mismatch, hBE, get_representation], by simp⟩
        | Any =>
          exact ⟨false, some (.Type (.Tuple ts) .Any),
            by simp [assignable, hBE, get_representation],
            by simp [first_mismatch, hBE, get_representation], by simp⟩
        | Every => simp [tyEq] at hBE
        | Option t2 =>
          exact ⟨false, some (.Type (.Tuple ts) (.Option t2)),
            by simp [assignable, hBE, get_representation],
            by simp [first_mismatch, hBE, get_representation], by simp⟩
        | Union ts2 =>
          exact ⟨false, some (.Type (.Tuple ts) (.Union ts2)),
            by simp [assignable, hBE, get_representation],
            by simp [first_mismatch, hBE, get_representation], by simp⟩
      | Union ts =>
        have hA2 : structuralList ts = true := by simpa [structuralTy] using hA
        have hsz : tsizeList ts ≤ m := by simp only [tsize] at hs; omega
        cases B with
        | Union ts2 =>
          have hB2 : structuralList ts2 = true := by simpa [structuralTy] using hB
          have hz : PairAgree (fun a b => assignable m tt a b seen)
              (fun a b => first_mismatch m tt a b seen) ts ts2 := by
            intro a b hab
            have hmem := List.of_mem_zip hab
            exact IH m hm a b tt seen (structuralList_mem hmem.1 hA2)
              (structuralList_mem hmem.2 hB2) (le_trans (tsize_mem_le hmem.1) hsz)
          obtain ⟨b, rm, h1, h2, h3⟩ := vectors_assignable_mismatch_total _ _
            TypeMismatch.Union TypeMismatch.UnionLength ts ts2 hz
          refine ⟨b, rm, ?_, ?_, h3⟩
          · simpa [assignable, hBE, get_representation] using h1
          · simpa [first_mismatch, hBE, get_representation] using h2
        | Void =>
          exact ⟨false, some (.Type (.Union ts) .Void),
            by simp [assignable, hBE, get_representation],
            by simp [first_mismatch, hBE, get_representation], by simp⟩
        | Uint =>
          exact ⟨false, some (.Type (.Union ts) .Uint),
            by simp [assignable, hBE, get_representation],
            by simp [first_mismatch, hBE, get_representation], by simp⟩
        | Int =>
          exact ⟨false, some (.Type (.Union ts) .Int),
            by simp [assignable, hBE, get_representation],
            by simp [first_mismatch, hBE, get_representation], by simp⟩
        | Bool =>
          exact ⟨false, some (.Type (.Union ts) .Bool),
            by simp [assignable, hBE, get_representation],
            by simp [first_mismatch, hBE, get_representation], by simp⟩
        | Bytes32 =>
          exact ⟨false, some (.Type (.Union ts) .Bytes32),
            by simp [assignable, hBE, get_representation],
            by simp [first_mismatch, hBE, get_representation], by simp⟩
        | EthAddress =>
          exact ⟨false, some (.Type (.Union ts) .EthAddress),
            by simp [assignable, hBE, get_representation],
            by simp [first_mismatch, hBE, get_representation], by simp⟩
        | Buffer =>
          exact ⟨false, some (.Type (.Union ts) .Buffer),
            by simp [assignable, hBE, get_representation],
            by simp [first_mismatch, hBE, get_representation], by simp⟩
        | Tuple ts2 =>
          exact ⟨false, some (.Type (.Union ts) (.Tuple ts2)),
            by simp [assignable, hBE, get_representation],
            by simp [first_mismatch, hBE, get_representation], by simp⟩
        | Array t2 =>
          exact ⟨false, some (.Type (.Union ts) (.Array t2)),
            by simp [assignable, hBE, get_representation],
            by simp [first_mismatch, hBE, get_representation], by simp⟩
        | FixedArray t2 s2 =>
          exact ⟨false, some (.Type (.Union ts) (.FixedArray t2 s2)),
            by simp [assignable, hBE, get_representation],
            by simp [first_mismatch, hBE, get_representation], by simp⟩
        | Struct fs2 =>
          exact ⟨false, some (.Type (.Union ts) (.Struct fs2)),
            by simp [assignable, hBE, get_representation],
            by simp [first_mismatch, hBE, get_representation], by simp⟩
        | Variable p2 i2 => simp [structuralTy] at hB
        | Nominal p2 i2 => simp [structuralTy] at hB
        | Generic id2 args2 => simp [structuralTy] at hB
        | Func pr2 args2 ret2 => simp [structuralTy] at hB
        | Map k2 v2 =>
          exact ⟨false, some (.Type (.Union ts) (.Map k2 v2)),
            by simp [assignable, hBE, get_representation],
            by simp [first_mismatch, hBE, get_representation], by simp⟩
        | Any =>
          exact ⟨false, some (.Type (.Union ts) .Any),
            by simp [assignable, hBE, get_representation],
            by simp [first_mismatch, hBE, get_representation], by simp⟩
        | Every => simp [tyEq] at hBE
        | Option t2 =>
          exact ⟨false, some (.Type (.Union ts) (.Option t2)),
            by simp [assignable, hBE, get_representation],
            by simp [first_mismatch, hBE, get_representation], by simp⟩
      | Struct fs =>
        have hA2 : structuralFields fs = true := by simpa [structuralTy] using hA
        have hsz : tsizeFields fs ≤ m := by simp only [tsize] at hs; omega
        cases B with
        | Struct fs2 =>
          have hB2 : structuralFields fs2 = true := by simpa [structuralTy] using hB
          have hz : ∀ f g, (f, g) ∈ fs.zip fs2 →
              ∃ bb rm, assignable m tt f.2 g.2 seen = some bb ∧
                first_mismatch m tt f.2 g.2 seen = some rm ∧ (rm = none ↔ bb = true) := by
            intro f g hfg
            have hmem := List.of_mem_zip hfg
            exact IH m hm f.2 g.2 tt seen (structuralFields_mem hmem.1 hA2)
              (structuralFields_mem hmem.2 hB2) (le_trans (tsize_field_mem_le hmem.1) hsz)
          obtain ⟨b, rm, h1, h2, h3⟩ := fields_assignable_mismatch_total
            (fun a b => assignable m tt a b seen)
            (fun a b => first_mismatch m tt a b seen) fs fs2 hz
          refine ⟨b, rm, ?_, ?_, h3⟩
          · simpa [assignable, hBE, get_representation] using h1
          · simpa [first_mismatch, hBE, get_representation] using h2
        | Void =>
          exact ⟨false, some (.Type (.Struct fs) .Void),
            by simp [assignable, hBE, get_representation],
            by simp [first_mismatch, hBE, get_representation], by simp⟩
        | Uint =>
          exact ⟨false, some (.Type (.Struct fs) .Uint),
            by simp [assignable, hBE, get_representation],
            by simp [first_mismatch, hBE, get_representation], by simp⟩
        | Int =>
          exact ⟨false, some (.Type (.Struct fs) .Int),
            by simp [assignable, hBE, get_representation],
            by simp [first_mismatch, hBE, get_representation], by simp⟩
        | Bool =>
          exact ⟨false, some (.Type (.Struct fs) .Bool),
            by simp [assignable, hBE, get_representation],
            by simp [first_mismatch, hBE, get_representation], by simp⟩
        | Bytes32 =>
          exact ⟨false, some (.Type (.Struct fs) .Bytes32),
            by simp [assignable, hBE, get_representation],
            by simp [first_mismatch, hBE, get_representation], by simp⟩
        | EthAddress =>
          exact ⟨false, some (.Type (.Struct fs) .EthAddress),
            by simp [assignable, hBE, get_representation],
            by simp [first_mismatch, hBE, get_representation], by simp⟩
        | Buffer =>
          exact ⟨false, some (.Type (.Struct fs) .Buffer),
            by simp [assignable, hBE, get_representation],
            by simp [first_mismatch, hBE, get_representation], by simp⟩
        | Tuple ts2 =>
          exact ⟨false, some (.Type (.Struct fs) (.Tuple ts2)),
            by simp [assignable, hBE, get_representation],
            by simp [first_mismatch, hBE, get_representation], by simp⟩
        | Array t2 =>
          exact ⟨false, some (.Type (.Struct fs) (.Array t2)),
            by simp [assignable, hBE, get_representation],
            by simp [first_mismatch, hBE, get_representation], by simp⟩
        | FixedArray t2 s2 =>
          exact ⟨false, some (.Type (.Struct fs) (.FixedArray t2 s2)),
            by simp [assignable, hBE, get_representation],
            by simp [first_mismatch, hBE, get_representation], by simp⟩
        | Variable p2 i2 => simp [structuralTy] at hB
        | Nominal p2 i2 => simp [structuralTy] at hB
        | Generic id2 args2 => simp [structuralTy] at hB
        | Func pr2 args2 ret2 => simp [structuralTy] at hB
        | Map k2 v2 =>
          exact ⟨false, some (.Type (.Struct fs) (.Map k2 v2)),
            by simp [assignable, hBE, get_representation],
            by simp [first_mismatch, hBE, get_representation], by simp⟩
        | Any =>
          exact ⟨false, some (.Type (.Struct fs) .Any),
            by simp [assignable, hBE, get_representation],
            by simp [first_mismatch, hBE, get_representation], by simp⟩
        | Every => simp [tyEq] at hBE
        | Option t2 =>
          exact ⟨false, some (.Type (.Struct fs) (.Option t2)),
            by simp [assignable, hBE, get_representation],
            by simp [first_mismatch, hBE, get_representation], by simp⟩
        | Union ts2 =>
          exact ⟨false, some (.Type (.Struct fs) (.Union ts2)),
            by simp [assignable, hBE, get_representation],
            by simp [first_mismatch, hBE, get_representation], by simp⟩
      | Array t =>
        have hA2 : structuralTy t = true := by simpa [structuralTy] using hA
        have hsz : tsize t ≤ m := by simp only [tsize] at hs; omega
        cases B with
        | Array t2 =>
          have hB2 : structuralTy t2 = true := by simpa [structuralTy] using hB
          obtain ⟨bi, rmi, h1, h2, h3⟩ := IH m hm t t2 tt seen hA2 hB2 hsz
          rcases rmi with _ | mi
          · exact ⟨bi, none, by simpa [assignable, hBE, get_representation] using h1,
              by simp [first_mismatch, hBE, get_representation, h2], h3⟩
          · exact ⟨bi, some (.ArrayMismatch mi),
              by simpa [assignable, hBE, get_representation] using h1,
              by simp [first_mismatch, hBE, get_representation, h2],
              by simpa using h3⟩
        | Void =>
          exact ⟨false, some (.Type (.Array t) .Void),
            by simp [assignable, hBE, get_representation],
            by simp [first_mismatch, hBE, get_representation], by simp⟩
        | Uint =>
          exact ⟨false, some (.Type (.Array t) .Uint),
            by simp [assignable, hBE, get_representation],
            by simp [first_mismatch, hBE, get_representation], by simp⟩
        | Int =>
          exact ⟨false, some (.Type (.Array t) .Int),
            by simp [assignable, hBE, get_representation],
            by simp [first_mismatch, hBE, get_representation], by simp⟩
        | Bool =>
          exact ⟨false, some (.Type (.Array t) .Bool),
            by simp [assignable, hBE, get_representation],
            by simp [first_mismatch, hBE, get_representation], by simp⟩
        | Bytes32 =>
          exact ⟨false, some (.Type (.Array t) .Bytes32),
            by simp [assignable, hBE, get_representation],
            by simp [first_mismatch, hBE, get_representation], by simp⟩
        | EthAddress =>
          exact ⟨false, some (.Type (.Array t) .EthAddress),
            by simp [assignable, hBE, get_representation],
            by simp [first_mismatch, hBE, get_representation], by simp⟩
        | Buffer =>
          exact ⟨false, some (.Type (.Array t) .Buffer),
            by simp [assignable, hBE, get_representation],
            by simp [first_mismatch, hBE, get_representation], by simp⟩
        | Tuple ts2 =>
          exact ⟨false, some (.Type (.Array t) (.Tuple ts2)),
            by simp [assignable, hBE, get_representation],
            by simp [first_mismatch, hBE, get_representation], by simp⟩
        | FixedArray t2 s2 =>
          exact ⟨false, some (.Type (.Array t) (.FixedArray t2 s2)),
            by simp [assignable, hBE, get_representation],
            by simp [first_mismatch, hBE, get_representation], by simp⟩
        | Struct fs2 =>
          exact ⟨false, some (.Type (.Array t) (.Struct fs2)),
            by simp [assignable, hBE, get_representation],
            by simp [first_mismatch, hBE, get_representation], by simp⟩
        | Variable p2 i2 => simp [structuralTy] at hB
        | Nominal p2 i2 => simp [structuralTy] at hB
        | Generic id2 args2 => simp [structuralTy] at hB
        | Func pr2 args2 ret2 => simp [structuralTy] at hB
        | Map k2 v2 =>
          exact ⟨false, some (.Type (.Array t) (.Map k2 v2)),
            by simp [assignable, hBE, get_representation],
            by simp [first_mismatch, hBE, get_representation], by simp⟩
        | Any =>
          exact ⟨false, some (.Type (.Array t) .Any),
            by simp [assignable, hBE, get_representation],
            by simp [first_mismatch, hBE, get_representation], by simp⟩
        | Every => simp [tyEq] at hBE
        | Option t2 =>
          exact ⟨false, some (.Type (.Array t) (.Option t2)),
            by simp [assignable, hBE, get_representation],
            by simp [first_mismatch, hBE, get_representation], by simp⟩
        | Union ts2 =>
          exact ⟨false, some (.Type (.Array t) (.Union ts2)),
            by simp [assignable, hBE, get_representation],
            by simp [first_mismatch, hBE, get_representation], by simp⟩
      | Option t =>
        have hA2 : structuralTy t = true := by simpa [structuralTy] using hA
        have hsz : tsize t ≤ m := by simp only [tsize] at hs; omega
        cases B with
        | Option t2 =>
          have hB2 : structuralTy t2 = true := by simpa [structuralTy] using hB
          obtain ⟨bi, rmi, h1, h2, h3⟩ := IH m hm t t2 tt seen hA2 hB2 hsz
          rcases rmi with _ | mi
          · exact ⟨bi, none, by simpa [assignable, hBE, get_representation] using h1,
              by simp [first_mismatch, hBE, get_representation, h2], h3⟩
          · exact ⟨bi, some (.Option mi),
              by simpa [assignable, hBE, get_representation] using h1,
              by simp [first_mismatch, hBE, get_representation, h2],
              by simpa using h3⟩
        | Void =>
          exact ⟨false, some (.Type (.Option t) .Void),
            by simp [assignable, hBE, get_representation],
            by simp [first_mismatch, hBE, get_representation], by simp⟩
        | Uint =>
          exact ⟨false, some (.Type (.Option t) .Uint),
            by simp [assignable, hBE, get_representation],
            by simp [first_mismatch, hBE, get_representation], by simp⟩
        | Int =>
          exact ⟨false, some (.Type (.Option t) .Int),
            by simp [assignable, hBE, get_representation],
            by simp [first_mismatch, hBE, get_representation], by simp⟩
        | Bool =>
          exact ⟨false, some (.Type (.Option t) .Bool),
            by simp [assignable, hBE, get_representation],
            by simp [first_mismatch, hBE, get_representation], by simp⟩
        | Bytes32 =>
          exact ⟨false, some (.Type (.Option t) .Bytes32),
            by simp [assignable, hBE, get_representation],
            by simp [first_mismatch, hBE, get_representation], by simp⟩
        | EthAddress =>
          exact ⟨false, some (.Type (.Option t) .EthAddress),
            by simp [assignable, hBE, get_representation],
            by simp [first_mismatch, hBE, get_representation], by simp⟩
        | Buffer =>
          exact ⟨false, some (.Type (.Option t) .Buffer),
            by simp [assignable, hBE, get_representation],
            by simp [first_mismatch, hBE, get_representation], by simp⟩
        | Tuple ts2 =>
          exact ⟨false, some (.Type (.Option t) (.Tuple ts2)),
            by simp [assignable, hBE, get_representation],
            by simp [first_mismatch, hBE, get_representation], by simp⟩
        | Array t2 =>
          exact ⟨false, some (.Type (.Option t) (.Array t2)),
            by simp [assignable, hBE, get_representation],
            by simp [first_mismatch, hBE, get_representation], by simp⟩
        | FixedArray t2 s2 =>
          exact ⟨false, some (.Type (.Option t) (.FixedArray t2 s2)),
            by simp [assignable, hBE, get_representation],
            by simp [first_mismatch, hBE, get_representation], by simp⟩
        | Struct fs2 =>
          exact ⟨false, some (.Type (.Option t) (.Struct fs2)),
            by simp [assignable, hBE, get_representation],
            by simp [first_mismatch, hBE, get_representation], by simp⟩
        | Variable p2 i2 => simp [structuralTy] at hB
        | Nominal p2 i2 => simp [structuralTy] at hB
        | Generic id2 args2 => simp [structuralTy] at hB
        | Func pr2 args2 ret2 => simp [structuralTy] at hB
        | Map k2 v2 =>
          exact ⟨false, some (.Type (.Option t) (.Map k2 v2)),
            by simp [assignable, hBE, get_representation],
            by simp [first_mismatch, hBE, get_representation], by simp⟩
        | Any =>
          exact ⟨false, some (.Type (.Option t) .Any),
            by simp [assignable, hBE, get_representation],
            by simp [first_mismatch, hBE, get_representation], by simp⟩
        | Every => simp [tyEq] at hBE
        | Union ts2 =>
          exact ⟨false, some (.Type (.Option t) (.Union ts2)),
            by simp [assignable, hBE, get_representation],
            by simp [first_mismatch, hBE, get_representation], by simp⟩
      | FixedArray t s =>
        have hA2 : structuralTy t = true := by simpa [structuralTy] using hA
        have hsz : tsize t ≤ m := by simp only [tsize] at hs; omega
        cases B with
        | FixedArray t2 s2 =>
          have hB2 : structuralTy t2 = true := by simpa [structuralTy] using hB
          obtain ⟨bi, rmi, h1, h2, h3⟩ := IH m hm t t2 tt seen hA2 hB2 hsz
          by_cases hss : s = s2
          · subst hss
            rcases rmi with _ | mi
            · exact ⟨bi, none, by simpa [assignable, hBE, get_representation] using h1,
                by simp [first_mismatch, hBE, get_representation, h2], h3⟩
            · exact ⟨bi, some (.ArrayMismatch mi),
                by simpa [assignable, hBE, get_representation] using h1,
                by simp [first_mismatch, hBE, get_representation, h2],
                by simpa using h3⟩
          · rcases rmi with _ | mi
            · exact ⟨false, some (.ArrayLength s s2),
                by simp [assignable, hBE, get_representation, hss],
                by simp [first_mismatch, hBE, get_representation, h2, hss], by simp⟩
            · exact ⟨false, some (.ArrayMismatch mi),
                by simp [assignable, hBE, get_representation, hss],
                by simp [first_mismatch, hBE, get_representation, h2], by simp⟩
        | Void =>
          exact ⟨false, some (.Type (.FixedArray t s) .Void),
            by simp [assignable, hBE, get_representation],
            by simp [first_mismatch, hBE, get_representation], by simp⟩
        | Uint =>
          exact ⟨false, some (.Type (.FixedArray t s) .Uint),
            by simp [assignable, hBE, get_representation],
            by simp [first_mismatch, hBE, get_representation], by simp⟩
        | Int =>
          exact ⟨false, some (.Type (.FixedArray t s) .Int),
            by simp [assignable, hBE, get_representation],
            by simp [first_mismatch, hBE, get_representation], by simp⟩
        | Bool =>
          exact ⟨false, some (.Type (.FixedArray t s) .Bool),
            by simp [assignable, hBE, get_representation],
            by simp [first_mismatch, hBE, get_representation], by simp⟩
        | Bytes32 =>
          exact ⟨false, some (.Type (.FixedArray t s) .Bytes32),
            by simp [assignable, hBE, get_representation],
            by simp [first_mismatch, hBE, get_representation], by simp⟩
        | EthAddress =>
          exact ⟨false, some (.Type (.FixedArray t s) .EthAddress),
            by simp [assignable, hBE, get_representation],
            by simp [first_mismatch, hBE, get_representation], by simp⟩
        | Buffer =>
          exact ⟨false, some (.Type (.FixedArray t s) .Buffer),
            by simp [assignable, hBE, get_representation],
            by simp [first_mismatch, hBE, get_representation], by simp⟩
        | Tuple ts2 =>
          exact ⟨false, some (.Type (.FixedArray t s) (.Tuple ts2)),
            by simp [assignable, hBE, get_representation],
            by simp [first_mismatch, hBE, get_representation], by simp⟩
        | Array t2 =>
          exact ⟨false, some (.Type (.FixedArray t s) (.Array t2)),
            by simp [assignable, hBE, get_representation],
            by simp [first_mismatch, hBE, get_representation], by simp⟩
        | Struct fs2 =>
          exact ⟨false, some (.Type (.FixedArray t s) (.Struct fs2)),
            by simp [assignable, hBE, get_representation],
            by simp [first_mismatch, hBE, get_representation], by simp⟩
        | Variable p2 i2 => simp [structuralTy] at hB
        | Nominal p2 i2 => simp [structuralTy] at hB
        | Generic id2 args2 => simp [structuralTy] at hB
        | Func pr2 args2 ret2 => simp [structuralTy] at hB
        | Map k2 v2 =>
          exact ⟨false, some (.Type (.FixedArray t s) (.Map k2 v2)),
            by simp [assignable, hBE, get_representation],
            by simp [first_mismatch, hBE, get_representation], by simp⟩
        | Any =>
          exact ⟨false, some (.Type (.FixedArray t s) .Any),
            by simp [assignable, hBE, get_representation],
            by simp [first_mismatch, hBE, get_representation], by simp⟩
        | Every => simp [tyEq] at hBE
        | Option t2 =>
          exact ⟨false, some (.Type (.FixedArray t s) (.Option t2)),
            by simp [assignable, hBE, get_representation],
            by simp [first_mismatch, hBE, get_representation], by simp⟩
        | Union ts2 =>
          exact ⟨false, some (.Type (.FixedArray t s) (.Union ts2)),
            by simp [assignable, hBE, get_representation],
            by simp [first_mismatch, hBE, get_representation], by simp⟩
      | Map k v =>
        have hAk : structuralTy k = true := by
          have h0 := hA; simp only [structuralTy, Bool.and_eq_true] at h0; exact h0.1
        have hAv : structuralTy v = true := by
          have h0 := hA; simp only [structuralTy, Bool.and_eq_true] at h0; exact h0.2
        have hsk : tsize k ≤ m := by simp only [tsize] at hs; omega
        have hsv : tsize v ≤ m := by simp only [tsize] at hs; omega
        cases B with
        | Map k2 v2 =>
          have hBk : structuralTy k2 = true := by
            have h0 := hB; simp only [structuralTy, Bool.and_eq_true] at h0; exact h0.1
          have hBv : structuralTy v2 = true := by
            have h0 := hB; simp only [structuralTy, Bool.and_eq_true] at h0; exact h0.2
          have hrepv2 := get_representation_of_structural hBv m tt
          obtain ⟨bk, rmk, hk1, hk2, hk3⟩ := IH m hm k k2 tt seen hAk hBk hsk
          obtain ⟨bv, rmv, hv1, hv2, hv3⟩ := IH m hm v v2 tt seen hAv hBv hsv
          cases bk with
          | false =>
            rcases rmk with _ | mk
            · simp at hk3
            · exact ⟨false, some (.Map true mk),
                by simp [assignable, hBE, hrepv2, hk1],
                by simp [first_mismatch, hBE, hrepv2, hk2], by simp⟩
          | true =>
            have hrmk : rmk = none := hk3.mpr rfl
            subst hrmk
            rcases rmv with _ | mv
            · exact ⟨bv, none, by simp [assignable, hBE, hrepv2, hk1, hv1],
                by simp [first_mismatch, hBE, hrepv2, hk2, hv2], hv3⟩
            · exact ⟨bv, some (.Map false mv),
                by simp [assignable, hBE, hrepv2, hk1, hv1],
                by simp [first_mismatch, hBE, hrepv2, hk2, hv2],
                by simpa using hv3⟩
        | Void =>
          exact ⟨false, some (.Type (.Map k v) .Void),
            by simp [assignable, hBE, get_representation],
            by simp [first_mismatch, hBE, get_representation], by simp⟩
        | Uint =>
          exact ⟨false, some (.Type (.Map k v) .Uint),
            by simp [assignable, hBE, get_representation],
            by simp [first_mismatch, hBE, get_representation], by simp⟩
        | Int =>
          exact ⟨false, some (.Type (.Map k v) .Int),
            by simp [assignable, hBE, get_representation],
            by simp [first_mismatch, hBE, get_representation], by simp⟩
        | Bool =>
          exact ⟨false, some (.Type (.Map k v) .Bool),
            by simp [assignable, hBE, get_representation],
            by simp [first_mismatch, hBE, get_representation], by simp⟩
        | Bytes32 =>
          exact ⟨false, some (.Type (.Map k v) .Bytes32),
            by simp [assignable, hBE, get_representation],
            by simp [first_mismatch, hBE, get_representation], by simp⟩
        | EthAddress =>
          exact ⟨false, some (.Type (.Map k v) .EthAddress),
            by simp [assignable, hBE, get_representation],
            by simp [first_mismatch, hBE, get_representation], by simp⟩
        | Buffer =>
          exact ⟨false, some (.Type (.Map k v) .Buffer),
            by simp [assignable, hBE, get_representation],
            by simp [first_mismatch, hBE, get_representation], by simp⟩
        | Tuple ts2 =>
          exact ⟨false, some (.Type (.Map k v) (.Tuple ts2)),
            by simp [assignable, hBE, get_representation],
            by simp [first_mismatch, hBE, get_representation], by simp⟩
        | Array t2 =>
          exact ⟨false, some (.Type (.Map k v) (.Array t2)),
            by simp [assignable, hBE, get_representation],
            by simp [first_mismatch, hBE, get_representation], by simp⟩
        | FixedArray t2 s2 =>
          exact ⟨false, some (.Type (.Map k v) (.FixedArray t2 s2)),
            by simp [assignable, hBE, get_representation],
            by simp [first_mismatch, hBE, get_representation], by simp⟩
        | Struct fs2 =>
          exact ⟨false, some (.Type (.Map k v) (.Struct fs2)),
            by simp [assignable, hBE, get_representation],
            by simp [first_mismatch, hBE, get_representation], by simp⟩
        | Variable p2 i2 => simp [structuralTy] at hB
        | Nominal p2 i2 => simp [structuralTy] at hB
        | Generic id2 args2 => simp [structuralTy] at hB
        | Func pr2 args2 ret2 => simp [structuralTy] at hB
        | Any =>
          exact ⟨false, some (.Type (.Map k v) .Any),
            by simp [assignable, hBE, get_representation],
            by simp [first_mismatch, hBE, get_representation], by simp⟩
        | Every => simp [tyEq] at hBE
        | Option t2 =>
          exact ⟨false, some (.Type (.Map k v) (.Option t2)),
            by simp [assignable, hBE, get_representation],
            by simp [first_mismatch, hBE, get_representation], by simp⟩
        | Union ts2 =>
          exact ⟨false, some (.Type (.Map k v) (.Union ts2)),
            by simp [assignable, hBE, get_representation],
            by simp [first_mismatch, hBE, get_representation], by simp⟩

/-- **C2 (counterexample).**  `first_mismatch` is *not* equivalent to
`assignable` on all pairs: on function types it compares argument types
covariantly, while `assignable` is contravariant in them.  For
`A = Func([Any] → Void)` and `B = Func([Uint] → Void)` (pure properties),
`assignable(A, B)` is `false` (storing `B` into `A` would need
`Uint.assignable(Any)`), yet `first_mismatch(A, B)` finds no mismatch
(`Any.first_mismatch(Uint)` is `None`). -/
theorem first_mismatch_none_but_not_assignable :
    first_mismatch 5 [] (.Func ⟨false, false, false, false⟩ [.Any] .Void)
        (.Func ⟨false, false, false, false⟩ [.Uint] .Void) [] = some none ∧
      assignable 5 [] (.Func ⟨false, false, false, false⟩ [.Any] .Void)
        (.Func ⟨false, false, false, false⟩ [.Uint] .Void) [] = some false ∧
      ¬(first_mismatch 5 [] (.Func ⟨false, false, false, false⟩ [.Any] .Void)
            (.Func ⟨false, false, false, false⟩ [.Uint] .Void) [] = some none ↔
          assignable 5 [] (.Func ⟨false, false, false, false⟩ [.Any] .Void)
            (.Func ⟨false, false, false, false⟩ [.Uint] .Void) [] = some true) :=
  ⟨rfl, rfl, fun hiff => absurd (hiff.mp rfl) (by decide)⟩

/-- **C2 (amended).**  On the structural fragment — both types free of
`Variable` (panics in `assignable`), `Nominal` (different seen-set
disciplines), `Generic` (mutual vs one-way argument comparison) and `Func`
(contravariant vs covariant argument comparison) — `first_mismatch(A, B)`
returns `None` exactly when `assignable(A, B)` returns `true`, against any
type tree and seen set, at any fuel at least the size of `A`. -/
theorem first_mismatch_none_iff_assignable (n : Nat) (A B : Ty) (tt : TypeTree)
    (seen : SeenSet) (hA : structuralTy A = true) (hB : structuralTy B = true)
    (hn : tsize A ≤ n) :
    first_mismatch n tt A B seen = some none ↔ assignable n tt A B seen = some true := by
  obtain ⟨b, rm, h1, h2, h3⟩ := assignable_mismatch_agree n A B tt seen hA hB hn
  rw [h1, h2]
  cases b <;> rcases rm with _ | m <;> simp_all

/-- Witness for `first_mismatch_none_iff_assignable` at concrete types. -/
theorem first_mismatch_none_iff_assignable_witness :
    first_mismatch 2 [] (.Tuple [.Uint]) .Uint [] = some none ↔
      assignable 2 [] (.Tuple [.Uint]) .Uint [] = some true :=
  first_mismatch_none_iff_assignable 2 (.Tuple [.Uint]) .Uint [] [] (by decide) (by decide)
    (by decide)
